import Mathlib

/-!
Verification of the `garage-single-node` bootstrap orchestrator.

This file gives a shallow embedding of the orchestrator's core logic
(`src/main.rs` and `src/config.rs`) and proves the specification claims
about it:

* the readiness-polling loop `wait_for_garage` (process-liveness priority,
  topology guard, timeout behaviour),
* the reconciliation sequence `ensure_layout` / `ensure_key` /
  `ensure_buckets` over a state model of the remote control plane,
* bucket-name validation and bucket-entry parsing from `config.rs`,
* the startup sequence of `main` (key deletion, config write, spawn).

The remote control plane (the garage server behind the admin API) is an
external collaborator of the repository; its call semantics are modelled
from the spec (sections 4 and 6 of `spec.md`).  Machine integers appear
only as `i64::MAX`, modelled as `2^63 - 1 : Int`.  Opaque identifiers are
modelled as `Nat` (bucket ids) and `String` (node ids, access-key ids).
-/

namespace GarageSingleNode

/-! ## Readiness prober (`wait_for_garage`, main.rs lines 94-141)

The Rust loop polls on a fixed interval.  On each iteration it

1. checks `child.try_wait()` and returns `Exited(status)` if the process
   has exited;
2. calls `get_cluster_status()`:
   on success with `nodes.len() != 1` it returns
   `UnexpectedNumberOfNodes`; with the sole node up it returns
   `Ok(node_id)`; with the sole node not up, or on a transport error, it
   falls through (logging only);
3. returns `Timeout` if `start.elapsed() >= 20s`.

We model one loop iteration by a `Tick` recording what the environment
would answer on that iteration: the result of `try_wait`, the result of
the status fetch, and the elapsed time (in milliseconds) sampled at the
timeout check.  The loop itself consumes a finite script of ticks; a
script that is exhausted before the loop returns yields `none`.
-/

/-- Node entry of a cluster-status response (`id`, `is_up`). -/
structure ClusterNode where
  id : String
  is_up : Bool
deriving DecidableEq, Repr

/-- Outcome of one `get_cluster_status` call: a transport/connection
failure, or a successful response carrying the node list. -/
inductive FetchOutcome
  | transportError
  | success (nodes : List ClusterNode)
deriving DecidableEq, Repr

/-- Environment answers for one iteration of the polling loop. -/
structure Tick where
  /-- Result of `child.try_wait()`: `some status` iff the process has
  exited (the status is the process exit status). -/
  procExit : Option Int
  /-- Result of the cluster-status fetch on this iteration. -/
  fetch : FetchOutcome
  /-- Value of `start.elapsed()` in milliseconds at the timeout check. -/
  elapsedMs : Nat
deriving DecidableEq, Repr

/-- Terminal outcome of the readiness prober, mirroring the `StartError`
variants of main.rs plus the `Ok(NodeId)` success. -/
inductive ProbeOutcome
  | ready (nodeId : String)
  | exited (status : Int)
  | timeout
  | unexpectedNumberOfNodes (n : Nat)
deriving DecidableEq, Repr

/-- Overall readiness timeout: `GARAGE_START_TIMEOUT = 20s`, in ms. -/
def GARAGE_START_TIMEOUT_MS : Nat := 20000

/-- One iteration of the `wait_for_garage` loop body: `some r` means the
loop returns `r` on this iteration, `none` means it sleeps and polls
again.  Faithful to main.rs lines 97-140: liveness first, then the
status match (wrong node count returns immediately; a node that is up
returns immediately), then the `elapsed >= 20s` timeout check. -/
def probeStep (t : Tick) : Option ProbeOutcome :=
  match t.procExit with
  | some status => some (.exited status)
  | none =>
    match t.fetch with
    | .success [node] =>
      if node.is_up then some (.ready node.id)
      else if GARAGE_START_TIMEOUT_MS ≤ t.elapsedMs then some .timeout
      else none
    | .success nodes => some (.unexpectedNumberOfNodes nodes.length)
    | .transportError =>
      if GARAGE_START_TIMEOUT_MS ≤ t.elapsedMs then some .timeout
      else none

/-- The polling loop over a finite script of environment ticks. -/
def wait_for_garage : List Tick → Option ProbeOutcome
  | [] => none
  | t :: rest =>
    match probeStep t with
    | some r => some r
    | none => wait_for_garage rest

theorem wait_for_garage_cons (t : Tick) (rest : List Tick) :
    wait_for_garage (t :: rest) =
      match probeStep t with
      | some r => some r
      | none => wait_for_garage rest := rfl

/-- Helper: the loop skips over a prefix of non-terminating ticks. -/
theorem wait_for_garage_append_of_none (pre rest : List Tick)
    (hpre : ∀ u ∈ pre, probeStep u = none) :
    wait_for_garage (pre ++ rest) = wait_for_garage rest := by
  induction pre with
  | nil => rfl
  | cons u pre ih =>
    have hu : probeStep u = none := hpre u (List.mem_cons_self u pre)
    have hrest : ∀ v ∈ pre, probeStep v = none := fun v hv =>
      hpre v (List.mem_cons_of_mem u hv)
    simp [wait_for_garage, hu, ih hrest]

/-- C2: on every tick of the readiness-polling loop that is reached while
still polling, the process liveness check comes first: if the process has
exited on that tick, the prober's result is `Exited(status)` — never
`Ready`, `Timeout`, or the topology error — regardless of what the
status fetch and the elapsed time on that tick are. -/
theorem probe_exited_priority (pre post : List Tick) (t : Tick) (status : Int)
    (hpre : ∀ u ∈ pre, probeStep u = none)
    (ht : t.procExit = some status) :
    wait_for_garage (pre ++ t :: post) = some (.exited status) := by
  rw [wait_for_garage_append_of_none pre (t :: post) hpre]
  simp [wait_for_garage, probeStep, ht]

/-- Witness for C2: a concrete script whose second tick reports a process
exit while the status fetch on the same tick reports a healthy node and
the elapsed time is past the timeout; the result is still `exited 3`. -/
theorem probe_exited_priority_witness :
    wait_for_garage
      ([⟨none, .transportError, 100⟩] ++
        ⟨some 3, .success [⟨"n1", true⟩], 25000⟩ :: []) =
      some (.exited 3) := by
  apply probe_exited_priority
  · intro u hu
    simp only [List.mem_singleton] at hu
    subst hu
    rfl
  · rfl

/-- C3 counterexample: a tick on which the process has not exited, the
elapsed time (20.001s) exceeds the 20s timeout, and the status fetch
reports the sole node up, does NOT yield `Timeout`: the loop returns
`Ready` before reaching the timeout check. -/
theorem probe_timeout_not_unconditional :
    wait_for_garage [⟨none, .success [⟨"n1", true⟩], 20001⟩] =
        some (.ready "n1") ∧
      wait_for_garage [⟨none, .success [⟨"n1", true⟩], 20001⟩] ≠
        some .timeout := by
  constructor
  · rfl
  · decide

/-- C3 (amended): on any tick reached while still polling where the
process has not exited, the elapsed time is at least the 20s timeout
(the code compares with `>=`), and the tick's poll outcome falls through
(a transport failure, or a single-node response whose node is not up),
the prober's outcome is `Timeout`.  A tick whose poll outcome is a ready
node or a wrong node count instead returns that outcome even past the
timeout. -/
theorem probe_timeout (pre post : List Tick) (t : Tick)
    (hpre : ∀ u ∈ pre, probeStep u = none)
    (hrun : t.procExit = none)
    (hpoll : t.fetch = .transportError ∨
      ∃ node, t.fetch = .success [node] ∧ node.is_up = false)
    (htime : GARAGE_START_TIMEOUT_MS ≤ t.elapsedMs) :
    wait_for_garage (pre ++ t :: post) = some .timeout := by
  rw [wait_for_garage_append_of_none pre (t :: post) hpre]
  rcases hpoll with h | ⟨node, hfetch, hup⟩
  · simp [wait_for_garage, probeStep, hrun, h, htime]
  · simp [wait_for_garage, probeStep, hrun, hfetch, hup, htime]

/-- Witness for the amended C3: a not-up single-node response at 20s
elapsed, after one silent transport-failure tick, yields `Timeout`. -/
theorem probe_timeout_witness :
    wait_for_garage
      ([⟨none, .transportError, 100⟩] ++
        ⟨none, .success [⟨"n1", false⟩], 20000⟩ :: []) = some .timeout := by
  apply probe_timeout
  · intro u hu
    simp only [List.mem_singleton] at hu
    subst hu
    rfl
  · rfl
  · exact Or.inr ⟨⟨"n1", false⟩, rfl, rfl⟩
  · decide

/-- C4: on any tick reached while still polling where the process has not
exited and the status fetch succeeds with a node count other than one,
the prober terminates immediately (no retry, regardless of the remaining
script and of the elapsed time) with the fatal
`UnexpectedNumberOfNodes` outcome, whatever the nodes' `is_up` values. -/
theorem probe_topology_guard (pre post : List Tick) (t : Tick)
    (nodes : List ClusterNode)
    (hpre : ∀ u ∈ pre, probeStep u = none)
    (hrun : t.procExit = none)
    (hfetch : t.fetch = .success nodes)
    (hn : nodes.length ≠ 1) :
    wait_for_garage (pre ++ t :: post) =
      some (.unexpectedNumberOfNodes nodes.length) := by
  rw [wait_for_garage_append_of_none pre (t :: post) hpre]
  rcases nodes with _ | ⟨a, _ | ⟨b, rest⟩⟩
  · simp [wait_for_garage, probeStep, hrun, hfetch]
  · exact absurd rfl hn
  · simp [wait_for_garage, probeStep, hrun, hfetch]

/-- Witness for C4: a two-node response with both nodes up, at an elapsed
time past the timeout and followed by further ticks, yields the topology
error for node count 2. -/
theorem probe_topology_guard_witness :
    wait_for_garage
      ([] ++ ⟨none, .success [⟨"n1", true⟩, ⟨"n2", true⟩], 25000⟩ ::
        [⟨none, .transportError, 25100⟩]) =
      some (.unexpectedNumberOfNodes 2) :=
  probe_topology_guard [] [⟨none, .transportError, 25100⟩]
    ⟨none, .success [⟨"n1", true⟩, ⟨"n2", true⟩], 25000⟩
    [⟨"n1", true⟩, ⟨"n2", true⟩]
    (fun u hu => absurd hu (List.not_mem_nil u)) rfl rfl (by decide)

/-! ## Configuration parsing (`config.rs`)

`is_valid_bucket_name` is translated from config.rs lines 120-127;
`parse_bucket_entry` from the per-entry body of `Config::from_env`
(config.rs lines 56-85).  Lean's `Char.isAlpha` / `Char.isAlphanum` are
exactly Rust's `is_ascii_alphabetic` / `is_ascii_alphanumeric` (ASCII
ranges only).  Rust's `str::trim` is modelled by dropping
`Char.isWhitespace` characters from both ends of the character list
(Rust trims the full Unicode whitespace set; the two sets agree on all
ASCII input). -/

/-- Characters of `s.trim`: whitespace dropped from both ends. -/
def trimChars (l : List Char) : List Char :=
  ((l.dropWhile Char.isWhitespace).reverse.dropWhile Char.isWhitespace).reverse

/-- Bucket access policy (`BucketPolicy` in config.rs). -/
inductive BucketPolicy
  | Private
  | Public
deriving DecidableEq, Repr

/-- Desired bucket entry (`BucketConfig` in config.rs). -/
structure BucketConfig where
  name : String
  policy : BucketPolicy
deriving DecidableEq, Repr

/-- Configuration-loading errors (`ConfigError` in config.rs); only the
variants reachable from bucket-entry parsing are exercised here. -/
inductive ConfigError
  | MissingVar (name : String)
  | EmptyVar (name : String)
  | InvalidUnicode (name : String)
  | InvalidBucketEntry (entry : String)
  | InvalidBucketName (name : String)
  | InvalidBucketPolicy (bucket : String) (value : String)
deriving DecidableEq, Repr

/-- Bucket-name validation (config.rs lines 120-127): the first
character must exist and be ASCII alphabetic, all remaining characters
must be ASCII alphanumeric. -/
def is_valid_bucket_name (name : String) : Bool :=
  match name.data with
  | [] => false
  | first :: rest => first.isAlpha && rest.all (fun c => c.isAlphanum)

/-- Rust's `entry.splitn(2, ':')` on a character list: the part before
the first `':'`, and (when a `':'` occurs) the untouched remainder. -/
def splitn2Colon : List Char → List Char × Option (List Char)
  | [] => ([], none)
  | c :: cs =>
    if c = ':' then ([], some cs)
    else
      let p := splitn2Colon cs
      (c :: p.1, p.2)

/-- Policy parsing: strum's `EnumString` with
`serialize_all = "snake_case", ascii_case_insensitive` accepts exactly
`private` / `public` up to ASCII case. -/
def bucketPolicyFromStr (s : String) : Option BucketPolicy :=
  if s.data.map Char.toLower = "private".data then some .Private
  else if s.data.map Char.toLower = "public".data then some .Public
  else none

/-- One iteration of the `GARAGE_BUCKETS` parsing loop in
`Config::from_env` (config.rs lines 56-85): trim the raw entry, reject
empty entries, split at the first `':'`, trim and validate the name, and
parse the optional policy (defaulting to `Private`). -/
def parse_bucket_entry (raw_entry : String) : Except ConfigError BucketConfig :=
  let entry := String.mk (trimChars raw_entry.data)
  if entry = "" then .error (.InvalidBucketEntry raw_entry)
  else
    let p := splitn2Colon entry.data
    let name := String.mk (trimChars p.1)
    if name = "" || !is_valid_bucket_name name then
      .error (.InvalidBucketName name)
    else
      match p.2 with
      | some v =>
        match bucketPolicyFromStr (String.mk v) with
        | some policy => .ok ⟨name, policy⟩
        | none => .error (.InvalidBucketPolicy name (String.mk v))
      | none => .ok ⟨name, .Private⟩

/-- C8: a bucket name is accepted by validation iff it is non-empty, its
first character is ASCII alphabetic and its remaining characters are
ASCII alphanumeric; `"abc123"` is valid and parses (with default policy
`Private`), while `"1abc"` and `"ab-c"` are rejected by the
configuration parser with an invalid-bucket-name error, as is the empty
name (reached from an entry such as `":public"`); the empty string
fails validation. -/
theorem bucket_name_validation :
    (∀ name : String, is_valid_bucket_name name = true ↔
      ∃ first rest, name.data = first :: rest ∧ first.isAlpha = true ∧
        ∀ c ∈ rest, c.isAlphanum = true) ∧
    is_valid_bucket_name "abc123" = true ∧
    is_valid_bucket_name "1abc" = false ∧
    is_valid_bucket_name "" = false ∧
    is_valid_bucket_name "ab-c" = false ∧
    parse_bucket_entry "abc123" = .ok ⟨"abc123", .Private⟩ ∧
    parse_bucket_entry "1abc" = .error (.InvalidBucketName "1abc") ∧
    parse_bucket_entry "ab-c" = .error (.InvalidBucketName "ab-c") ∧
    parse_bucket_entry ":public" = .error (.InvalidBucketName "") := by
  refine ⟨fun name => ?_, rfl, by decide, rfl, by decide, rfl, rfl, rfl, rfl⟩
  unfold is_valid_bucket_name
  cases h : name.data with
  | nil => simp
  | cons first rest =>
    simp only [Bool.and_eq_true, List.all_eq_true]
    constructor
    · rintro ⟨h1, h2⟩
      exact ⟨first, rest, rfl, h1, fun c hc => h2 c hc⟩
    · rintro ⟨f, r, heq, h1, h2⟩
      cases heq
      exact ⟨h1, fun c hc => h2 c hc⟩

/-! ## Startup sequence (`delete_keys`, `create_config`, `run_garage`,
`main`; main.rs lines 65-92, 143-173, 294-310)

`main` runs, in order: `Config::from_env`, `delete_keys()`,
`create_config(&config)`, `run_garage(&config)` (which spawns the server
process and then polls readiness), then the three reconciliation steps.
We model the externally observable side effects of the prefix up to and
including the process spawn as an event trace over an abstract system
state.  The metadata database file is modelled as `Option (List String)`
(`none` = the file does not exist, `some rows` = the rows of the
`tree_key_COLON_table` key table); `deleteOk` models whether the SQL
`DELETE` statement succeeds. -/

/-- Path of the sqlite metadata database checked by `delete_keys`. -/
def GARAGE_DB_PATH : String := "/var/lib/garage/meta/db.sqlite"

/-- Path of the generated server configuration file. -/
def GARAGE_CONFIG_PATH : String := "/etc/garage.toml"

/-- Observable side effects of the startup prefix of `main`. -/
inductive SysEvent
  /-- All rows deleted from the `tree_key_COLON_table` key table of the
  database at `GARAGE_DB_PATH`. -/
  | deleteAllKeys
  /-- The generated server configuration written to the given path. -/
  | writeConfigFile (path : String)
  /-- An OS process spawned with the given program and argument list. -/
  | spawnProcess (program : String) (args : List String)
deriving DecidableEq, Repr

/-- Abstract system state seen by the startup sequence. -/
structure SysState where
  /-- Key-table rows of the metadata database; `none` iff the database
  file does not exist. -/
  db : Option (List String)
  /-- Whether the `DELETE FROM tree_key_COLON_table;` statement would
  succeed. -/
  deleteOk : Bool
deriving DecidableEq, Repr

/-- Translation of `delete_keys` (main.rs lines 65-81): if the database
file exists, delete every row of the key table (propagating a deletion
failure as an error); otherwise skip without error. -/
def delete_keys (s : SysState) : Except String (SysState × List SysEvent) :=
  match s.db with
  | some _ =>
    if s.deleteOk then .ok ({ s with db := some [] }, [.deleteAllKeys])
    else .error "Could not delete keys in DB"
  | none => .ok (s, [])

/-- Argument list passed to the spawned server process by `run_garage`
(main.rs lines 146-150): `Command::new("/garage").arg("-c")
.arg(&config_path).arg("server")`. -/
def run_garage_args (config_path : String) : List String :=
  ["-c", config_path, "server"]

/-- Startup prefix of `main` (main.rs lines 295-300), as a state
transformer producing the event trace: `delete_keys()`, then
`create_config` (which writes the configuration file), then the process
spawn performed by `run_garage`. -/
def main_startup (s : SysState) : Except String (SysState × List SysEvent) := do
  let (s, ev) ← delete_keys s
  .ok (s, ev ++ [.writeConfigFile GARAGE_CONFIG_PATH] ++
    [.spawnProcess "/garage" (run_garage_args GARAGE_CONFIG_PATH)])

/-- C9 counterexample: the argument list handed to the spawned server
process is not `[configPath, "server"]` — the configuration path is
preceded by the `-c` flag. -/
theorem run_garage_args_not_bare :
    run_garage_args "/etc/garage.toml" ≠ ["/etc/garage.toml", "server"] := by
  decide

/-- Helper: complete case description of `main_startup`. -/
theorem main_startup_eq (s : SysState) :
    main_startup s =
      match s.db with
      | none =>
        .ok (s, [.writeConfigFile GARAGE_CONFIG_PATH,
          .spawnProcess "/garage" (run_garage_args GARAGE_CONFIG_PATH)])
      | some _ =>
        if s.deleteOk then
          .ok ({ s with db := some [] },
            [.deleteAllKeys, .writeConfigFile GARAGE_CONFIG_PATH,
              .spawnProcess "/garage" (run_garage_args GARAGE_CONFIG_PATH)])
        else .error "Could not delete keys in DB" := by
  unfold main_startup delete_keys
  cases s.db with
  | none => rfl
  | some rows =>
    by_cases hok : s.deleteOk
    · simp only [hok, if_true]
      rfl
    · simp only [hok, Bool.false_eq_true, if_false]
      rfl

/-- C9 (amended): any successful startup spawns exactly one external
server process, and its argument list is `["-c", configPath, "server"]`
— the `-c` flag, then the configuration file path, then the literal word
`server`, with no other arguments. -/
theorem main_startup_spawns_once (s t : SysState) (evs : List SysEvent)
    (h : main_startup s = .ok (t, evs)) :
    (evs.filter fun e =>
        match e with
        | .spawnProcess _ _ => true
        | _ => false) =
      [.spawnProcess "/garage" ["-c", GARAGE_CONFIG_PATH, "server"]] := by
  rw [main_startup_eq] at h
  cases hdb : s.db with
  | none =>
    rw [hdb] at h
    simp only [Except.ok.injEq, Prod.mk.injEq] at h
    rw [← h.2]
    rfl
  | some rows =>
    rw [hdb] at h
    by_cases hok : s.deleteOk
    · rw [if_pos hok] at h
      simp only [Except.ok.injEq, Prod.mk.injEq] at h
      rw [← h.2]
      rfl
    · rw [if_neg hok] at h
      exact absurd h (by simp)

/-- Witness for the amended C9: starting from an existing database with
one key row, the startup trace contains exactly one spawn event with the
`-c`-prefixed argument list. -/
theorem main_startup_spawns_once_witness :
    (([.deleteAllKeys, .writeConfigFile GARAGE_CONFIG_PATH,
        .spawnProcess "/garage" (run_garage_args GARAGE_CONFIG_PATH)] :
          List SysEvent).filter fun e =>
        match e with
        | .spawnProcess _ _ => true
        | _ => false) =
      [.spawnProcess "/garage" ["-c", GARAGE_CONFIG_PATH, "server"]] :=
  main_startup_spawns_once ⟨some ["key1"], true⟩ ⟨some [], true⟩ _ rfl

/-- C10: on every run, the key-deletion step runs before the
configuration file is written and before the server process is spawned;
if the metadata database file exists, every row of its key table is
removed (and the run aborts, writing no config and spawning no process,
when the deletion fails); if the file does not exist the step is skipped
without error.  Hence previously existing access keys never survive a
successful startup: the database afterwards is either absent or empty. -/
theorem main_startup_deletes_keys_first (s : SysState) :
    (s.db = none →
      main_startup s = .ok (s, [.writeConfigFile GARAGE_CONFIG_PATH,
        .spawnProcess "/garage" (run_garage_args GARAGE_CONFIG_PATH)])) ∧
    (∀ rows, s.db = some rows → s.deleteOk = true →
      main_startup s = .ok ({ s with db := some [] },
        [.deleteAllKeys, .writeConfigFile GARAGE_CONFIG_PATH,
          .spawnProcess "/garage" (run_garage_args GARAGE_CONFIG_PATH)])) ∧
    (∀ rows, s.db = some rows → s.deleteOk = false →
      main_startup s = .error "Could not delete keys in DB") ∧
    (∀ t evs, main_startup s = .ok (t, evs) → t.db = none ∨ t.db = some []) := by
  refine ⟨?_, ?_, ?_, ?_⟩
  · intro hdb
    rw [main_startup_eq, hdb]
  · intro rows hdb hok
    rw [main_startup_eq, hdb]
    simp [hok]
  · intro rows hdb hok
    rw [main_startup_eq, hdb]
    simp [hok]
  · intro t evs h
    rw [main_startup_eq] at h
    cases hdb : s.db with
    | none =>
      rw [hdb] at h
      simp only [Except.ok.injEq, Prod.mk.injEq] at h
      exact Or.inl (h.1 ▸ hdb)
    | some rows =>
      rw [hdb] at h
      by_cases hok : s.deleteOk
      · rw [if_pos hok] at h
        simp only [Except.ok.injEq, Prod.mk.injEq] at h
        right
        rw [← h.1]
      · rw [if_neg hok] at h
        exact absurd h (by simp)

/-- Witness for C10: a database with two key rows is emptied before the
config write and the spawn, and a missing database is skipped. -/
theorem main_startup_deletes_keys_first_witness :
    main_startup ⟨some ["k1", "k2"], true⟩ =
        .ok (⟨some [], true⟩,
          [.deleteAllKeys, .writeConfigFile GARAGE_CONFIG_PATH,
            .spawnProcess "/garage" (run_garage_args GARAGE_CONFIG_PATH)]) ∧
      main_startup ⟨none, true⟩ =
        .ok (⟨none, true⟩, [.writeConfigFile GARAGE_CONFIG_PATH,
          .spawnProcess "/garage" (run_garage_args GARAGE_CONFIG_PATH)]) :=
  ⟨(main_startup_deletes_keys_first ⟨some ["k1", "k2"], true⟩).2.1
      ["k1", "k2"] rfl rfl,
    (main_startup_deletes_keys_first ⟨none, true⟩).1 rfl⟩

/-! ## Remote control-plane model and the reconciliation sequence
(main.rs lines 175-292)

The admin API client (`crate::admin_api`, generated client code not under
`src/`) and the garage server behind it are modelled as a state machine
over `GarageState`, with call semantics modelled from the spec: §6
(request/response shapes), §4.3 (two-phase versioned layout apply), §4.4
(idempotent key import), and the glossary (a global alias is a unique
name bound to one bucket id).  Each call through the model

* consumes one entry of an error schedule (`sched`), so that a
  transport/HTTP failure can be injected at any call position and the
  translation of `?`-propagation can be observed, and
* appends the call to an event trace (`trace`), so claims about which
  calls a run issues are statements about the trace.

Bucket ids are opaque; the model issues them as consecutive naturals
(`nextId`).  The three `ensure_*` functions and `reconcile` below are
the translations of main.rs. -/

deriving instance DecidableEq for Except

/-- Website-access payload of an update-bucket call
(`UpdateBucketWebsiteAccess`). -/
structure UpdateBucketWebsiteAccess where
  enabled : Bool
  error_document : Option String
  index_document : Option String
deriving DecidableEq, Repr

/-- Body of an update-bucket call (`UpdateBucketRequestBody`); `quotas`
is always `None` in this program. -/
structure UpdateBucketRequestBody where
  quotas : Option Unit
  website_access : Option UpdateBucketWebsiteAccess
deriving DecidableEq, Repr

/-- Permission flags of an allow-bucket-key request
(`ApiBucketKeyPerm`): each flag is optional; a present `true` grants the
permission. -/
structure ApiBucketKeyPerm where
  owner : Option Bool
  read : Option Bool
  write : Option Bool
deriving DecidableEq, Repr

/-- Stored permission triple of one access key on one bucket. -/
structure Perm where
  owner : Bool
  read : Bool
  write : Bool
deriving DecidableEq, Repr

/-- Effect of an allow-bucket-key request on a stored permission triple:
each requested flag is or-ed in (modelled from the spec, §3
`AccessGrant`: allow grants permissions, it does not revoke). -/
def allowPerm (old : Perm) (req : ApiBucketKeyPerm) : Perm :=
  ⟨old.owner || req.owner.getD false,
    old.read || req.read.getD false,
    old.write || req.write.getD false⟩

/-- One role change submitted in a layout update (`NodeRoleChange`,
assignment variant). -/
structure NodeRoleChange where
  capacity : Option Int
  tags : List String
  zone : String
  id : String
deriving DecidableEq, Repr

/-- Rust's `i64::MAX`, the full capacity assigned to the single node. -/
def i64_MAX : Int := 2 ^ 63 - 1

/-- One bucket as held by the remote control plane: opaque id, global
aliases, current website-access configuration, and per-access-key
permissions. -/
structure RemoteBucket where
  id : Nat
  global_aliases : List String
  website : UpdateBucketWebsiteAccess
  perms : List (String × Perm)
deriving DecidableEq, Repr

/-- State of the remote control plane (modelled from the spec, §3). -/
structure GarageState where
  /-- Committed layout version; `0` means uninitialized. -/
  layoutVersion : Nat
  /-- Staged (not yet applied) role changes. -/
  stagedRoles : List NodeRoleChange
  /-- Applied role assignments. -/
  roles : List NodeRoleChange
  /-- Imported access keys: id paired with secret. -/
  keys : List (String × String)
  /-- Buckets, in creation order. -/
  buckets : List RemoteBucket
  /-- Next fresh bucket id. -/
  nextId : Nat
deriving DecidableEq, Repr

/-- Errors an admin-API call can produce: an injected transport/HTTP
error (the environment's choice), or a semantic rejection by the server
model. -/
inductive ApiError
  /-- Transport or HTTP failure injected by the error schedule. -/
  | injected (code : Nat)
  /-- Create-bucket rejected: the global alias is already bound. -/
  | aliasTaken (aliasName : String)
  /-- Update/allow rejected: no bucket with this id. -/
  | noSuchBucket (id : Nat)
  /-- Apply-layout rejected: version is not current version + 1. -/
  | badLayoutVersion (version : Nat)
deriving DecidableEq, Repr

/-- Observable events of a reconciliation run: each admin-API call, and
the warnings logged for ambiguous buckets. -/
inductive Event
  | getClusterLayout
  | updateClusterLayout (roles : List NodeRoleChange)
  | applyClusterLayout (version : Nat)
  | importKey (access_key_id : String) (secret_access_key : String)
  | listBuckets
  | createBucket (global_alias : String)
  | updateBucket (id : Nat) (body : UpdateBucketRequestBody)
  | allowBucketKey (access_key_id : String) (bucket_id : Nat)
      (permissions : ApiBucketKeyPerm)
  | warnBucketWithoutAlias (id : Nat)
  | warnBucketWithMultipleAliases (id : Nat)
deriving DecidableEq, Repr

/-- Execution state threaded through a reconciliation run: the remote
state, the schedule of injected call errors (one entry consumed per
call; an exhausted schedule injects nothing), and the event trace. -/
structure St where
  g : GarageState
  sched : List (Option ApiError)
  trace : List Event
deriving DecidableEq, Repr

/-- Consume one entry of the error schedule. -/
def popErr (s : St) : Option ApiError × St :=
  match s.sched with
  | [] => (none, s)
  | e :: rest => (e, { s with sched := rest })

/-- Record one event on the trace. -/
def emit (c : Event) (s : St) : St := { s with trace := s.trace ++ [c] }

/-- Model of `get_cluster_layout`: returns the current layout (only its
`version` field is consumed by the orchestrator). -/
def api_get_cluster_layout (s : St) : Except ApiError (Nat × St) :=
  let p := popErr s
  let s := emit .getClusterLayout p.2
  match p.1 with
  | some err => .error err
  | none => .ok (s.g.layoutVersion, s)

/-- Model of `update_cluster_layout`: stages the submitted role changes
and returns the staged layout, whose `version` is still the current
committed version (the spec's two-phase apply, §4.3 and glossary). -/
def api_update_cluster_layout (roles : List NodeRoleChange) (s : St) :
    Except ApiError (Nat × St) :=
  let p := popErr s
  let s := emit (.updateClusterLayout roles) p.2
  match p.1 with
  | some err => .error err
  | none =>
    .ok (s.g.layoutVersion,
      { s with g := { s.g with stagedRoles := s.g.stagedRoles ++ roles } })

/-- Model of `apply_cluster_layout`: commits the staged role changes
under the given version, which must be the current version + 1
(modelled from the spec, §4.3 step 3 and glossary "versioned, applied in
two phases"). -/
def api_apply_cluster_layout (version : Nat) (s : St) : Except ApiError St :=
  let p := popErr s
  let s := emit (.applyClusterLayout version) p.2
  match p.1 with
  | some err => .error err
  | none =>
    if version = s.g.layoutVersion + 1 then
      .ok { s with g := { s.g with
        layoutVersion := version,
        roles := s.g.roles ++ s.g.stagedRoles,
        stagedRoles := [] } }
    else .error (.badLayoutVersion version)

/-- Model of `import_key`: importing an already-present key id is a
no-op, otherwise the key is added (modelled from the spec, §4.4:
"Importing an already-present key is assumed idempotent"). -/
def api_import_key (access_key_id secret_access_key : String) (s : St) :
    Except ApiError St :=
  let p := popErr s
  let s := emit (.importKey access_key_id secret_access_key) p.2
  match p.1 with
  | some err => .error err
  | none =>
    if s.g.keys.any (fun kv => kv.1 = access_key_id) then .ok s
    else .ok { s with g :=
      { s.g with keys := s.g.keys ++ [(access_key_id, secret_access_key)] } }

/-- Model of `list_buckets`: returns all buckets. -/
def api_list_buckets (s : St) : Except ApiError (List RemoteBucket × St) :=
  let p := popErr s
  let s := emit .listBuckets p.2
  match p.1 with
  | some err => .error err
  | none => .ok (s.g.buckets, s)

/-- Whether some bucket already holds the given global alias. -/
def bucketAliasTaken (bs : List RemoteBucket) (a : String) : Bool :=
  bs.any (fun b => b.global_aliases.contains a)

/-- Model of `create_bucket` with a global alias: rejected when the
alias is already bound (glossary: a global alias is a unique name bound
to one bucket id); otherwise a fresh bucket is appended, with the alias
as its sole global alias, website access disabled, and no key
permissions. -/
def api_create_bucket (global_alias : String) (s : St) :
    Except ApiError (Nat × St) :=
  let p := popErr s
  let s := emit (.createBucket global_alias) p.2
  match p.1 with
  | some err => .error err
  | none =>
    if bucketAliasTaken s.g.buckets global_alias then
      .error (.aliasTaken global_alias)
    else
      .ok (s.g.nextId, { s with g := { s.g with
        buckets := s.g.buckets ++
          [⟨s.g.nextId, [global_alias], ⟨false, none, none⟩, []⟩],
        nextId := s.g.nextId + 1 } })

/-- Effect of an update-bucket body on one bucket: a present
`website_access` replaces the stored website configuration. -/
def applyUpdateBucket (body : UpdateBucketRequestBody) (b : RemoteBucket) :
    RemoteBucket :=
  { b with website := body.website_access.getD b.website }

/-- Model of `update_bucket`: rejected when no bucket has the given id;
otherwise the addressed bucket's website configuration is updated. -/
def api_update_bucket (id : Nat) (body : UpdateBucketRequestBody) (s : St) :
    Except ApiError St :=
  let p := popErr s
  let s := emit (.updateBucket id body) p.2
  match p.1 with
  | some err => .error err
  | none =>
    if s.g.buckets.any (fun b => b.id = id) then
      .ok { s with g := { s.g with
        buckets := s.g.buckets.map
          (fun b => if b.id = id then applyUpdateBucket body b else b) } }
    else .error (.noSuchBucket id)

/-- Upsert of an allow-bucket-key request into a permission list: the
entry for the key is or-ed with the request (inserted if absent). -/
def upsertPerm (access_key_id : String) (req : ApiBucketKeyPerm) :
    List (String × Perm) → List (String × Perm)
  | [] => [(access_key_id, allowPerm ⟨false, false, false⟩ req)]
  | (k, q) :: rest =>
    if k = access_key_id then (k, allowPerm q req) :: rest
    else (k, q) :: upsertPerm access_key_id req rest

/-- Model of `allow_bucket_key`: rejected when no bucket has the given
id; otherwise the requested permissions are granted on that bucket. -/
def api_allow_bucket_key (access_key_id : String) (bucket_id : Nat)
    (permissions : ApiBucketKeyPerm) (s : St) : Except ApiError St :=
  let p := popErr s
  let s := emit (.allowBucketKey access_key_id bucket_id permissions) p.2
  match p.1 with
  | some err => .error err
  | none =>
    if s.g.buckets.any (fun b => b.id = bucket_id) then
      .ok { s with g := { s.g with
        buckets := s.g.buckets.map
          (fun b => if b.id = bucket_id then
            { b with perms := upsertPerm access_key_id permissions b.perms }
            else b) } }
    else .error (.noSuchBucket bucket_id)

/-- Translation of `ensure_layout` (main.rs lines 175-203): fetch the
layout; if its version is positive, done; otherwise submit a single role
assignment for the node (capacity `i64::MAX`, no tags, zone `"dc1"`) and
apply the staged layout at the staged version + 1. -/
def ensure_layout (node_id : String) (s : St) : Except ApiError St := do
  let (version, s) ← api_get_cluster_layout s
  if version > 0 then
    return s
  let (stagedVersion, s) ← api_update_cluster_layout
    [{ capacity := some i64_MAX, tags := [], zone := "dc1", id := node_id }] s
  let s ← api_apply_cluster_layout (stagedVersion + 1) s
  return s

/-- Translation of `ensure_key` (main.rs lines 205-215): a single import
of the configured key identity and secret. -/
def ensure_key (access_key_id secret_access_key : String) (s : St) :
    Except ApiError St :=
  api_import_key access_key_id secret_access_key s

/-- Alias-to-id map construction of `ensure_buckets` (main.rs lines
218-232): fold over the listed buckets; a bucket with no global alias or
more than one global alias is skipped with a warning; a bucket with
exactly one alias is inserted (a later insert of the same alias wins,
as with `HashMap::insert`; the assoc list is consed at the front and
read by first match). -/
def collectBucketMap :
    List RemoteBucket → List (String × Nat) → St → List (String × Nat) × St
  | [], m, s => (m, s)
  | b :: rest, m, s =>
    match b.global_aliases with
    | [] => collectBucketMap rest m (emit (.warnBucketWithoutAlias b.id) s)
    | [a] => collectBucketMap rest ((a, b.id) :: m) s
    | _ :: _ :: _ =>
      collectBucketMap rest m (emit (.warnBucketWithMultipleAliases b.id) s)

/-- Website-access payload derived from a bucket's configured policy
(the inline `match` of main.rs lines 262-273). -/
def websiteAccessRequest : BucketPolicy → UpdateBucketWebsiteAccess
  | .Private =>
    { enabled := false
      error_document := none
      index_document := none }
  | .Public =>
    { enabled := true
      error_document := none
      index_document := some "index.html" }

/-- Update-bucket body sent for a configured bucket (main.rs lines
260-274): no quota change, website access per policy. -/
def updateBucketBody (policy : BucketPolicy) : UpdateBucketRequestBody :=
  { quotas := none, website_access := some (websiteAccessRequest policy) }

/-- Full-permission request sent for every configured bucket (main.rs
lines 283-287). -/
def allPermissions : ApiBucketKeyPerm :=
  { owner := some true, read := some true, write := some true }

/-- Per-bucket loop of `ensure_buckets` (main.rs lines 233-290): resolve
the configured name through the alias map (creating the bucket when
absent), then update the website policy, then grant the access key full
permissions. -/
def ensure_buckets_loop (access_key_id : String) (m : List (String × Nat)) :
    List BucketConfig → St → Except ApiError St
  | [], s => .ok s
  | bucket_config :: rest, s => do
    let (bucket_id, s) ←
      match m.lookup bucket_config.name with
      | none => api_create_bucket bucket_config.name s
      | some bucket_id => .ok (bucket_id, s)
    let s ← api_update_bucket bucket_id (updateBucketBody bucket_config.policy) s
    let s ← api_allow_bucket_key access_key_id bucket_id allPermissions s
    ensure_buckets_loop access_key_id m rest s

/-- Operator configuration (`Config` in config.rs; the two tokens are
not consumed by the reconciliation sequence). -/
structure Config where
  admin_token : String
  metrics_token : String
  access_key_id : String
  secret_access_key : String
  buckets : List BucketConfig
deriving DecidableEq, Repr

/-- Translation of `ensure_buckets` (main.rs lines 217-292): list the
remote buckets, build the alias-to-id map, then run the per-bucket
loop. -/
def ensure_buckets (config : Config) (s : St) : Except ApiError St := do
  let (bs, s) ← api_list_buckets s
  let p := collectBucketMap bs [] s
  ensure_buckets_loop config.access_key_id p.1 config.buckets p.2

/-- The full reconciliation sequence as run by `main` (main.rs lines
301-303): layout, then key, then buckets. -/
def reconcile (node_id : String) (config : Config) (s : St) :
    Except ApiError St := do
  let s ← ensure_layout node_id s
  let s ← ensure_key config.access_key_id config.secret_access_key s
  ensure_buckets config s

/-! ### Evaluation lemmas for the call model

All reconciliation proofs below run with an empty error schedule (no
injected transport failures); these equations evaluate each call model
one step at a time. -/

theorem except_bind_ok {α β ε : Type _} (a : α) (f : α → Except ε β) :
    (Except.ok a : Except ε α) >>= f = f a := rfl

theorem except_bind_error {α β ε : Type _} (e : ε) (f : α → Except ε β) :
    (Except.error e : Except ε α) >>= f = Except.error e := rfl

theorem except_pure {α ε : Type _} (a : α) :
    (pure a : Except ε α) = Except.ok a := rfl

theorem except_pure_bind {α β ε : Type _} (a : α) (f : α → Except ε β) :
    (pure a : Except ε α) >>= f = f a := rfl

theorem api_get_cluster_layout_nil (g : GarageState) (tr : List Event) :
    api_get_cluster_layout ⟨g, [], tr⟩ =
      .ok (g.layoutVersion, ⟨g, [], tr ++ [.getClusterLayout]⟩) := rfl

theorem api_update_cluster_layout_nil (roles : List NodeRoleChange)
    (g : GarageState) (tr : List Event) :
    api_update_cluster_layout roles ⟨g, [], tr⟩ =
      .ok (g.layoutVersion,
        ⟨{ g with stagedRoles := g.stagedRoles ++ roles }, [],
          tr ++ [.updateClusterLayout roles]⟩) := rfl

theorem api_apply_cluster_layout_nil_ok (g : GarageState) (tr : List Event) :
    api_apply_cluster_layout (g.layoutVersion + 1) ⟨g, [], tr⟩ =
      .ok ⟨{ g with
          layoutVersion := g.layoutVersion + 1,
          roles := g.roles ++ g.stagedRoles,
          stagedRoles := [] }, [],
        tr ++ [.applyClusterLayout (g.layoutVersion + 1)]⟩ := by
  unfold api_apply_cluster_layout popErr emit
  simp

theorem api_import_key_nil (k sec : String) (g : GarageState)
    (tr : List Event) :
    api_import_key k sec ⟨g, [], tr⟩ =
      .ok ⟨(if g.keys.any (fun kv => kv.1 = k) then g
          else { g with keys := g.keys ++ [(k, sec)] }), [],
        tr ++ [.importKey k sec]⟩ := by
  unfold api_import_key popErr emit
  by_cases h : g.keys.any (fun kv => kv.1 = k)
  · simp [h]
  · simp [h]

theorem api_list_buckets_nil (g : GarageState) (tr : List Event) :
    api_list_buckets ⟨g, [], tr⟩ =
      .ok (g.buckets, ⟨g, [], tr ++ [.listBuckets]⟩) := rfl

theorem api_create_bucket_nil_ok (a : String) (g : GarageState)
    (tr : List Event) (h : bucketAliasTaken g.buckets a = false) :
    api_create_bucket a ⟨g, [], tr⟩ =
      .ok (g.nextId, ⟨{ g with
          buckets := g.buckets ++ [⟨g.nextId, [a], ⟨false, none, none⟩, []⟩],
          nextId := g.nextId + 1 }, [],
        tr ++ [.createBucket a]⟩) := by
  unfold api_create_bucket popErr emit
  simp [h]

theorem api_update_bucket_nil_ok (id : Nat) (body : UpdateBucketRequestBody)
    (g : GarageState) (tr : List Event)
    (h : g.buckets.any (fun b => b.id = id) = true) :
    api_update_bucket id body ⟨g, [], tr⟩ =
      .ok ⟨{ g with
          buckets := g.buckets.map
            (fun b => if b.id = id then applyUpdateBucket body b else b) },
        [], tr ++ [.updateBucket id body]⟩ := by
  unfold api_update_bucket popErr emit
  simp [h]

theorem api_allow_bucket_key_nil_ok (k : String) (bucket_id : Nat)
    (permissions : ApiBucketKeyPerm) (g : GarageState) (tr : List Event)
    (h : g.buckets.any (fun b => b.id = bucket_id) = true) :
    api_allow_bucket_key k bucket_id permissions ⟨g, [], tr⟩ =
      .ok ⟨{ g with
          buckets := g.buckets.map
            (fun b => if b.id = bucket_id then
              { b with perms := upsertPerm k permissions b.perms }
              else b) },
        [], tr ++ [.allowBucketKey k bucket_id permissions]⟩ := by
  unfold api_allow_bucket_key popErr emit
  simp [h]

/-- Helper: complete behaviour of `ensure_layout` on an empty error
schedule, and error propagation at each of the three call positions. -/
theorem ensure_layout_eqs (node_id : String) (g : GarageState)
    (tr : List Event) :
    (0 < g.layoutVersion →
      ensure_layout node_id ⟨g, [], tr⟩ =
        .ok ⟨g, [], tr ++ [.getClusterLayout]⟩) ∧
    (g.layoutVersion = 0 →
      ensure_layout node_id ⟨g, [], tr⟩ =
        .ok ⟨{ g with
            layoutVersion := 1,
            roles := g.roles ++ (g.stagedRoles ++
              [⟨some i64_MAX, [], "dc1", node_id⟩]),
            stagedRoles := [] }, [],
          tr ++ [.getClusterLayout,
            .updateClusterLayout [⟨some i64_MAX, [], "dc1", node_id⟩],
            .applyClusterLayout 1]⟩) ∧
    (∀ e, ensure_layout node_id ⟨g, [some e], tr⟩ = .error e) ∧
    (g.layoutVersion = 0 → ∀ e,
      ensure_layout node_id ⟨g, [none, some e], tr⟩ = .error e) ∧
    (g.layoutVersion = 0 → ∀ e,
      ensure_layout node_id ⟨g, [none, none, some e], tr⟩ = .error e) := by
  refine ⟨?_, ?_, ?_, ?_, ?_⟩
  · intro h
    unfold ensure_layout
    rw [api_get_cluster_layout_nil, except_bind_ok]
    simp only [gt_iff_lt, h, if_true]
    rfl
  · intro h
    unfold ensure_layout
    rw [api_get_cluster_layout_nil, except_bind_ok]
    simp only [gt_iff_lt, h, lt_self_iff_false, if_false]
    rw [except_pure_bind, api_update_cluster_layout_nil, except_bind_ok]
    have happ := api_apply_cluster_layout_nil_ok
      { g with stagedRoles := g.stagedRoles ++
          [⟨some i64_MAX, [], "dc1", node_id⟩] }
      (tr ++ [.getClusterLayout] ++
        [.updateClusterLayout [⟨some i64_MAX, [], "dc1", node_id⟩]])
    simp only [h] at happ ⊢
    rw [happ, except_bind_ok]
    simp [except_pure, List.append_assoc]
  · intro e
    unfold ensure_layout api_get_cluster_layout popErr emit
    rfl
  · intro h e
    unfold ensure_layout
    have h1 : api_get_cluster_layout ⟨g, [none, some e], tr⟩ =
        .ok (g.layoutVersion, ⟨g, [some e], tr ++ [.getClusterLayout]⟩) := rfl
    rw [h1, except_bind_ok]
    simp only [gt_iff_lt, h, lt_self_iff_false, if_false]
    rw [except_pure_bind]
    have h2 : api_update_cluster_layout
        [⟨some i64_MAX, [], "dc1", node_id⟩]
        ⟨g, [some e], tr ++ [.getClusterLayout]⟩ = .error e := rfl
    rw [h2, except_bind_error]
  · intro h e
    unfold ensure_layout
    have h1 : api_get_cluster_layout ⟨g, [none, none, some e], tr⟩ =
        .ok (g.layoutVersion,
          ⟨g, [none, some e], tr ++ [.getClusterLayout]⟩) := rfl
    rw [h1, except_bind_ok]
    simp only [gt_iff_lt, h, lt_self_iff_false, if_false]
    rw [except_pure_bind]
    have h2 : api_update_cluster_layout
        [⟨some i64_MAX, [], "dc1", node_id⟩]
        ⟨g, [none, some e], tr ++ [.getClusterLayout]⟩ =
        .ok (g.layoutVersion,
          ⟨{ g with stagedRoles := g.stagedRoles ++
              [⟨some i64_MAX, [], "dc1", node_id⟩] }, [some e],
            tr ++ [.getClusterLayout] ++
              [.updateClusterLayout [⟨some i64_MAX, [], "dc1", node_id⟩]]⟩) :=
      rfl
    rw [h2, except_bind_ok]
    have h3 : api_apply_cluster_layout (g.layoutVersion + 1)
        ⟨{ g with stagedRoles := g.stagedRoles ++
            [⟨some i64_MAX, [], "dc1", node_id⟩] }, [some e],
          tr ++ [.getClusterLayout] ++
            [.updateClusterLayout [⟨some i64_MAX, [], "dc1", node_id⟩]]⟩ =
        .error e := rfl
    rw [h3, except_bind_error]

/-- C5: `ensure_layout` first fetches the layout; with a positive
version it succeeds immediately with no further call; with version 0 it
issues exactly one layout update assigning the node full capacity
(`i64::MAX`), an empty tag set and the fixed zone `"dc1"`, then one
apply at the staged version + 1 (= 1); and an API error injected at any
of the three call positions propagates unmodified. -/
theorem ensure_layout_spec (node_id : String) (g : GarageState)
    (tr : List Event) :
    (0 < g.layoutVersion →
      ensure_layout node_id ⟨g, [], tr⟩ =
        .ok ⟨g, [], tr ++ [.getClusterLayout]⟩) ∧
    (g.layoutVersion = 0 →
      ensure_layout node_id ⟨g, [], tr⟩ =
        .ok ⟨{ g with
            layoutVersion := 1,
            roles := g.roles ++ (g.stagedRoles ++
              [⟨some i64_MAX, [], "dc1", node_id⟩]),
            stagedRoles := [] }, [],
          tr ++ [.getClusterLayout,
            .updateClusterLayout [⟨some i64_MAX, [], "dc1", node_id⟩],
            .applyClusterLayout 1]⟩) ∧
    (∀ e, ensure_layout node_id ⟨g, [some e], tr⟩ = .error e) ∧
    (g.layoutVersion = 0 → ∀ e,
      ensure_layout node_id ⟨g, [none, some e], tr⟩ = .error e) ∧
    (g.layoutVersion = 0 → ∀ e,
      ensure_layout node_id ⟨g, [none, none, some e], tr⟩ = .error e) :=
  ensure_layout_eqs node_id g tr

/-- Witness for C5: concrete evaluations on an uninitialized state (the
version-0 branch, the positive-version branch at version 1, and a
first-call injected error). -/
theorem ensure_layout_spec_witness :
    ensure_layout "n1" ⟨⟨0, [], [], [], [], 0⟩, [], []⟩ =
        .ok ⟨⟨1, [], [⟨some i64_MAX, [], "dc1", "n1"⟩], [], [], 0⟩, [],
          [.getClusterLayout,
            .updateClusterLayout [⟨some i64_MAX, [], "dc1", "n1"⟩],
            .applyClusterLayout 1]⟩ ∧
      ensure_layout "n1" ⟨⟨1, [], [], [], [], 0⟩, [], []⟩ =
        .ok ⟨⟨1, [], [], [], [], 0⟩, [], [.getClusterLayout]⟩ ∧
      ensure_layout "n1" ⟨⟨0, [], [], [], [], 0⟩,
          [some (.injected 500)], []⟩ =
        .error (.injected 500) :=
  ⟨(ensure_layout_spec "n1" ⟨0, [], [], [], [], 0⟩ []).2.1 rfl,
    (ensure_layout_spec "n1" ⟨1, [], [], [], [], 0⟩ []).1 (by decide),
    (ensure_layout_spec "n1" ⟨0, [], [], [], [], 0⟩ []).2.2.1
      (.injected 500)⟩

/-! ### Pure description of the per-bucket loop effect

For each configured bucket the loop issues one update-bucket call and
one allow-bucket-key call against one resolved bucket id.  `entryStep`
is the composite effect of those two calls on a single remote bucket;
`runEntries` folds a resolution list (configured bucket paired with the
bucket id it resolved to) over one bucket, and `applyEntries` over the
whole bucket list.  These pure functions let the effect of a run be
stated once and replayed. -/

/-- Effect of processing one configured bucket (resolved to id `di.2`)
on a single remote bucket: the update-bucket map followed by the
allow-bucket-key map. -/
def entryStep (k : String) (di : BucketConfig × Nat) (b : RemoteBucket) :
    RemoteBucket :=
  let b1 := if b.id = di.2 then
    applyUpdateBucket (updateBucketBody di.1.policy) b else b
  if b1.id = di.2 then
    { b1 with perms := upsertPerm k allPermissions b1.perms } else b1

/-- Fold of `entryStep` over a resolution list. -/
def runEntries (k : String) : List (BucketConfig × Nat) → RemoteBucket →
    RemoteBucket
  | [], b => b
  | di :: ρ, b => runEntries k ρ (entryStep k di b)

/-- Effect of a whole bucket-loop run on the remote bucket list. -/
def applyEntries (k : String) (ρ : List (BucketConfig × Nat))
    (bs : List RemoteBucket) : List RemoteBucket :=
  bs.map (runEntries k ρ)

/-- Website configuration of a bucket with id `i` after a run. -/
def wAfterE : List (BucketConfig × Nat) → Nat → UpdateBucketWebsiteAccess →
    UpdateBucketWebsiteAccess
  | [], _, w => w
  | di :: ρ, i, w =>
    wAfterE ρ i (if i = di.2 then websiteAccessRequest di.1.policy else w)

/-- Permission list of a bucket with id `i` after a run. -/
def pAfterE (k : String) : List (BucketConfig × Nat) → Nat →
    List (String × Perm) → List (String × Perm)
  | [], _, p => p
  | di :: ρ, i, p =>
    pAfterE k ρ i (if i = di.2 then upsertPerm k allPermissions p else p)

theorem entryStep_eq (k : String) (di : BucketConfig × Nat)
    (b : RemoteBucket) :
    entryStep k di b =
      ⟨b.id, b.global_aliases,
        (if b.id = di.2 then websiteAccessRequest di.1.policy else b.website),
        (if b.id = di.2 then upsertPerm k allPermissions b.perms
          else b.perms)⟩ := by
  unfold entryStep applyUpdateBucket updateBucketBody
  by_cases h : b.id = di.2
  · simp [h]
  · simp [h]

theorem runEntries_eq (k : String) (ρ : List (BucketConfig × Nat)) :
    ∀ b : RemoteBucket,
      runEntries k ρ b =
        ⟨b.id, b.global_aliases, wAfterE ρ b.id b.website,
          pAfterE k ρ b.id b.perms⟩ := by
  induction ρ with
  | nil => intro b; rfl
  | cons di ρ ih =>
    intro b
    rw [runEntries, ih (entryStep k di b), entryStep_eq]
    by_cases h : b.id = di.2
    · simp [wAfterE, pAfterE, h]
    · simp [wAfterE, pAfterE, h]

theorem wAfterE_congr (ρ : List (BucketConfig × Nat)) (i : Nat) :
    ∀ w0 w1, wAfterE ρ i w0 = wAfterE ρ i w1 ∨
      ∀ w, wAfterE ρ i w = w := by
  induction ρ with
  | nil => intro w0 w1; exact Or.inr (fun w => rfl)
  | cons di ρ ih =>
    intro w0 w1
    by_cases h : i = di.2
    · left
      simp only [wAfterE, h, if_true]
    · rcases ih w0 w1 with h1 | h1
      · left
        simp only [wAfterE, h, if_false, h1]
      · right
        intro w
        simp only [wAfterE, h, if_false, h1]

theorem wAfterE_idem (ρ : List (BucketConfig × Nat)) (i : Nat)
    (w : UpdateBucketWebsiteAccess) :
    wAfterE ρ i (wAfterE ρ i w) = wAfterE ρ i w := by
  rcases wAfterE_congr ρ i (wAfterE ρ i w) w with h | h
  · exact h
  · exact h _

theorem allowPerm_absorb (q : Perm) (r : ApiBucketKeyPerm) :
    allowPerm (allowPerm q r) r = allowPerm q r := by
  cases q
  simp [allowPerm, Bool.or_assoc]

theorem upsertPerm_absorb (k : String) (r : ApiBucketKeyPerm) :
    ∀ l : List (String × Perm),
      upsertPerm k r (upsertPerm k r l) = upsertPerm k r l := by
  intro l
  induction l with
  | nil => simp [upsertPerm, allowPerm_absorb]
  | cons kv rest ih =>
    obtain ⟨k1, q⟩ := kv
    by_cases h : k1 = k
    · simp [upsertPerm, h, allowPerm_absorb]
    · simp [upsertPerm, h, ih]

theorem pAfterE_comm (k : String) (ρ : List (BucketConfig × Nat)) (i : Nat) :
    ∀ p, pAfterE k ρ i (upsertPerm k allPermissions p) =
      upsertPerm k allPermissions (pAfterE k ρ i p) := by
  induction ρ with
  | nil => intro p; rfl
  | cons di ρ ih =>
    intro p
    by_cases h : i = di.2
    · subst h
      simp only [pAfterE, eq_self_iff_true, if_true]
      exact ih (upsertPerm k allPermissions p)
    · simp only [pAfterE, h, if_false]
      exact ih p

theorem pAfterE_idem (k : String) (ρ : List (BucketConfig × Nat)) (i : Nat) :
    ∀ p, pAfterE k ρ i (pAfterE k ρ i p) = pAfterE k ρ i p := by
  induction ρ with
  | nil => intro p; rfl
  | cons di ρ ih =>
    intro p
    by_cases h : i = di.2
    · subst h
      simp only [pAfterE, eq_self_iff_true, if_true]
      rw [pAfterE_comm, ih, ← pAfterE_comm, upsertPerm_absorb]
    · simp only [pAfterE, h, if_false]
      exact ih p

theorem runEntries_idem (k : String) (ρ : List (BucketConfig × Nat))
    (b : RemoteBucket) :
    runEntries k ρ (runEntries k ρ b) = runEntries k ρ b := by
  simp only [runEntries_eq]
  simp [wAfterE_idem, pAfterE_idem]

theorem applyEntries_idem (k : String) (ρ : List (BucketConfig × Nat))
    (bs : List RemoteBucket) :
    applyEntries k ρ (applyEntries k ρ bs) = applyEntries k ρ bs := by
  unfold applyEntries
  rw [List.map_map]
  apply List.map_congr_left
  intro b _
  exact runEntries_idem k ρ b

theorem runEntries_noop (k : String) (ρ : List (BucketConfig × Nat))
    (b : RemoteBucket) (h : ∀ di ∈ ρ, b.id ≠ di.2) :
    runEntries k ρ b = b := by
  induction ρ with
  | nil => rfl
  | cons di ρ ih =>
    have hne : b.id ≠ di.2 := h di (List.mem_cons_self di ρ)
    rw [runEntries, entryStep_eq]
    simp only [hne, if_false]
    exact ih (fun dj hj => h dj (List.mem_cons_of_mem di hj))

/-! ### Alias map, warnings, and bookkeeping predicates -/

/-- Pure value of the alias-to-id map built by `ensure_buckets`
(warnings stripped): buckets are folded in order, a sole alias is
inserted at the front (so a later bucket with the same alias wins on
lookup, as with `HashMap::insert`), all other buckets are skipped. -/
def bucketMapPure : List RemoteBucket → List (String × Nat) →
    List (String × Nat)
  | [], m => m
  | b :: rest, m =>
    match b.global_aliases with
    | [a] => bucketMapPure rest ((a, b.id) :: m)
    | _ => bucketMapPure rest m

/-- Warnings emitted while building the alias map. -/
def warnEvents : List RemoteBucket → List Event
  | [] => []
  | b :: rest =>
    match b.global_aliases with
    | [] => .warnBucketWithoutAlias b.id :: warnEvents rest
    | [_] => warnEvents rest
    | _ :: _ :: _ => .warnBucketWithMultipleAliases b.id :: warnEvents rest

theorem collectBucketMap_spec (bs : List RemoteBucket) :
    ∀ (m : List (String × Nat)) (g : GarageState)
      (sched : List (Option ApiError)) (tr : List Event),
      collectBucketMap bs m ⟨g, sched, tr⟩ =
        (bucketMapPure bs m, ⟨g, sched, tr ++ warnEvents bs⟩) := by
  induction bs with
  | nil => intro m g sched tr; simp [collectBucketMap, bucketMapPure, warnEvents]
  | cons b rest ih =>
    intro m g sched tr
    rcases hal : b.global_aliases with _ | ⟨a, _ | ⟨a2, t⟩⟩
    · simp only [collectBucketMap, bucketMapPure, warnEvents, hal, emit, ih,
        List.append_assoc, List.singleton_append]
    · simp only [collectBucketMap, bucketMapPure, warnEvents, hal, ih]
    · simp only [collectBucketMap, bucketMapPure, warnEvents, hal, emit, ih,
        List.append_assoc, List.singleton_append]

/-- Last bucket in the list whose sole global alias is `n`, if any
(the lookup semantics of the alias map). -/
def aliasId (n : String) : List RemoteBucket → Option Nat
  | [] => none
  | b :: rest =>
    match aliasId n rest with
    | some i => some i
    | none => if b.global_aliases = [n] then some b.id else none

theorem lookup_cons_str (n a : String) (i : Nat) (m : List (String × Nat)) :
    List.lookup n ((a, i) :: m) =
      if n = a then some i else List.lookup n m := by
  by_cases h : n = a
  · simp [List.lookup, h]
  · simp [List.lookup, h]
    rw [show (n == a) = false from beq_eq_false_iff_ne.mpr h]

theorem lookup_bucketMapPure (n : String) (bs : List RemoteBucket) :
    ∀ acc : List (String × Nat),
      List.lookup n (bucketMapPure bs acc) =
        match aliasId n bs with
        | some i => some i
        | none => List.lookup n acc := by
  induction bs with
  | nil => intro acc; simp [bucketMapPure, aliasId]
  | cons b rest ih =>
    intro acc
    rcases hal : b.global_aliases with _ | ⟨a, _ | ⟨a2, t⟩⟩
    · simp only [bucketMapPure, aliasId, hal, ih]
      cases aliasId n rest with
      | some i => rfl
      | none => simp
    · simp only [bucketMapPure, aliasId, hal, ih, lookup_cons_str]
      cases aliasId n rest with
      | some i => rfl
      | none =>
        by_cases h : n = a
        · subst h
          simp
        · simp [h, Ne.symm h]
    · simp only [bucketMapPure, aliasId, hal, ih]
      cases aliasId n rest with
      | some i => rfl
      | none => simp

theorem aliasId_mem (n : String) :
    ∀ (bs : List RemoteBucket) (i : Nat), aliasId n bs = some i →
      ∃ b ∈ bs, b.id = i ∧ b.global_aliases = [n] := by
  intro bs
  induction bs with
  | nil => intro i h; exact absurd h (by simp [aliasId])
  | cons b rest ih =>
    intro i h
    rw [aliasId] at h
    cases hr : aliasId n rest with
    | some j =>
      rw [hr] at h
      obtain ⟨b1, hb1, hid, hal⟩ := ih j hr
      cases h
      exact ⟨b1, List.mem_cons_of_mem b hb1, hid, hal⟩
    | none =>
      rw [hr] at h
      by_cases hb : b.global_aliases = [n]
      · rw [if_pos hb] at h
        cases h
        exact ⟨b, List.mem_cons_self b rest, rfl, hb⟩
      · rw [if_neg hb] at h
        exact absurd h (by simp)

theorem aliasId_append (n : String) (bs1 bs2 : List RemoteBucket) :
    aliasId n (bs1 ++ bs2) =
      match aliasId n bs2 with
      | some i => some i
      | none => aliasId n bs1 := by
  induction bs1 with
  | nil =>
    simp only [List.nil_append]
    cases aliasId n bs2 with
    | some i => rfl
    | none => rfl
  | cons b rest ih =>
    rw [List.cons_append, aliasId, ih]
    cases aliasId n bs2 with
    | some i => rfl
    | none => rfl

theorem aliasId_map_preserved (n : String) (f : RemoteBucket → RemoteBucket)
    (hf : ∀ b, (f b).id = b.id ∧ (f b).global_aliases = b.global_aliases) :
    ∀ bs : List RemoteBucket, aliasId n (bs.map f) = aliasId n bs := by
  intro bs
  induction bs with
  | nil => rfl
  | cons b rest ih =>
    simp only [List.map_cons, aliasId, ih, (hf b).1, (hf b).2]

theorem bucketAliasTaken_append (bs1 bs2 : List RemoteBucket) (a : String) :
    bucketAliasTaken (bs1 ++ bs2) a =
      (bucketAliasTaken bs1 a || bucketAliasTaken bs2 a) := by
  simp [bucketAliasTaken, List.any_append]

theorem bucketAliasTaken_map_preserved (f : RemoteBucket → RemoteBucket)
    (hf : ∀ b, (f b).global_aliases = b.global_aliases)
    (bs : List RemoteBucket) (a : String) :
    bucketAliasTaken (bs.map f) a = bucketAliasTaken bs a := by
  induction bs with
  | nil => rfl
  | cons b rest ih =>
    simp only [bucketAliasTaken, List.map_cons, List.any_cons, hf b] at ih ⊢
    rw [ih]

theorem aliasId_some_taken (n : String) :
    ∀ (bs : List RemoteBucket) (i : Nat), aliasId n bs = some i →
      bucketAliasTaken bs n = true := by
  intro bs i h
  obtain ⟨b, hb, -, hal⟩ := aliasId_mem n bs i h
  unfold bucketAliasTaken
  rw [List.any_eq_true]
  exact ⟨b, hb, by simp [hal, List.contains_cons]⟩

theorem aliasId_none_of_not_taken (n : String) :
    ∀ bs : List RemoteBucket, bucketAliasTaken bs n = false →
      aliasId n bs = none := by
  intro bs h
  cases hr : aliasId n bs with
  | none => rfl
  | some i => rw [aliasId_some_taken n bs i hr] at h; cases h

/-- Shape invariant of the buckets a run creates: each has the next
fresh id, a sole global alias that was not yet bound at its creation
(relative to the buckets existing then), default website access and no
permissions. -/
def createdOk (gbs : List RemoteBucket) (nid : Nat) :
    List RemoteBucket → Prop
  | [] => True
  | c :: rest =>
    (∃ n, c = ⟨nid, [n], ⟨false, none, none⟩, []⟩ ∧
      bucketAliasTaken gbs n = false) ∧
    createdOk (gbs ++ [c]) (nid + 1) rest

/-- How each configured bucket resolved to an id: through the alias map,
or through a bucket created during the run. -/
def resolvedOk (m : List (String × Nat)) (created : List RemoteBucket) :
    List (BucketConfig × Nat) → Prop
  | [] => True
  | di :: ρ =>
    (m.lookup di.1.name = some di.2 ∨
      (m.lookup di.1.name = none ∧
        ∃ c ∈ created, c.id = di.2 ∧ c.global_aliases = [di.1.name])) ∧
    resolvedOk m created ρ

theorem resolvedOk_mono (m : List (String × Nat))
    (created created2 : List RemoteBucket)
    (hsub : ∀ c ∈ created, c ∈ created2) :
    ∀ ρ, resolvedOk m created ρ → resolvedOk m created2 ρ := by
  intro ρ
  induction ρ with
  | nil => intro h; trivial
  | cons di ρ ih =>
    intro h
    obtain ⟨h1, h2⟩ := h
    refine ⟨?_, ih h2⟩
    rcases h1 with h1 | ⟨hn, c, hc, hrest⟩
    · exact Or.inl h1
    · exact Or.inr ⟨hn, c, hsub c hc, hrest⟩

theorem createdOk_congr :
    ∀ (cs : List RemoteBucket) (gbs1 gbs2 : List RemoteBucket) (nid : Nat),
      (∀ a, bucketAliasTaken gbs1 a = bucketAliasTaken gbs2 a) →
      createdOk gbs1 nid cs → createdOk gbs2 nid cs := by
  intro cs
  induction cs with
  | nil => intro gbs1 gbs2 nid h hc; trivial
  | cons c rest ih =>
    intro gbs1 gbs2 nid h hc
    obtain ⟨⟨n, hshape, hfresh⟩, hrest⟩ := hc
    refine ⟨⟨n, hshape, (h n) ▸ hfresh⟩, ?_⟩
    apply ih (gbs1 ++ [c]) (gbs2 ++ [c]) (nid + 1) _ hrest
    intro a
    rw [bucketAliasTaken_append, bucketAliasTaken_append, h a]

theorem createdOk_ids :
    ∀ (cs gbs : List RemoteBucket) (nid : Nat), createdOk gbs nid cs →
      ∀ c ∈ cs, nid ≤ c.id := by
  intro cs
  induction cs with
  | nil => intro gbs nid h c hc; exact absurd hc (List.not_mem_nil c)
  | cons c0 rest ih =>
    intro gbs nid h c hc
    obtain ⟨⟨n, hshape, -⟩, hrest⟩ := h
    rcases List.mem_cons.mp hc with rfl | hc
    · rw [hshape]
    · exact Nat.le_of_succ_le (ih (gbs ++ [c0]) (nid + 1) hrest c hc)

theorem createdOk_fresh :
    ∀ (cs gbs : List RemoteBucket) (nid : Nat), createdOk gbs nid cs →
      ∀ c ∈ cs, ∃ n, c.global_aliases = [n] ∧
        bucketAliasTaken gbs n = false := by
  intro cs
  induction cs with
  | nil => intro gbs nid h c hc; exact absurd hc (List.not_mem_nil c)
  | cons c0 rest ih =>
    intro gbs nid h c hc
    obtain ⟨⟨n, hshape, hfresh⟩, hrest⟩ := h
    rcases List.mem_cons.mp hc with rfl | hc
    · exact ⟨n, by rw [hshape], hfresh⟩
    · obtain ⟨n1, hal, hfr⟩ := ih (gbs ++ [c0]) (nid + 1) hrest c hc
      refine ⟨n1, hal, ?_⟩
      rw [bucketAliasTaken_append] at hfr
      exact (Bool.or_eq_false_iff.mp hfr).1

theorem createdOk_aliasId :
    ∀ (cs gbs : List RemoteBucket) (nid : Nat), createdOk gbs nid cs →
      ∀ c ∈ cs, ∀ n, c.global_aliases = [n] → aliasId n cs = some c.id := by
  intro cs
  induction cs with
  | nil => intro gbs nid h c hc; exact absurd hc (List.not_mem_nil c)
  | cons c0 rest ih =>
    intro gbs nid h c hc n hal
    obtain ⟨⟨n0, hshape, hfresh⟩, hrest⟩ := h
    rcases List.mem_cons.mp hc with rfl | hc
    · have hn : n0 = n := by
        rw [hshape] at hal
        exact (List.cons.inj hal).1
      subst hn
      have htaken : bucketAliasTaken (gbs ++ [c]) n0 = true := by
        rw [bucketAliasTaken_append]
        apply Bool.or_eq_true_iff.mpr
        right
        simp [bucketAliasTaken, hshape, List.contains_cons]
      have hnone : aliasId n0 rest = none := by
        cases hr : aliasId n0 rest with
        | none => rfl
        | some j =>
          obtain ⟨b, hb, -, hbal⟩ := aliasId_mem n0 rest j hr
          obtain ⟨n2, hal2, hfr2⟩ := createdOk_fresh rest (gbs ++ [c]) (nid + 1) hrest b hb
          rw [hbal] at hal2
          have : n2 = n0 := (List.cons.inj hal2).1.symm
          rw [this] at hfr2
          rw [htaken] at hfr2
          cases hfr2
      rw [aliasId, hnone]
      simp [hal]
    · have := ih (gbs ++ [c0]) (nid + 1) hrest c hc n hal
      rw [aliasId, this]

/-! ### Step equations for the per-bucket loop -/

theorem api_create_bucket_nil_err (a : String) (g : GarageState)
    (tr : List Event) (h : bucketAliasTaken g.buckets a = true) :
    api_create_bucket a ⟨g, [], tr⟩ = .error (.aliasTaken a) := by
  unfold api_create_bucket popErr emit
  simp [h]

theorem api_update_bucket_nil_err (id : Nat) (body : UpdateBucketRequestBody)
    (g : GarageState) (tr : List Event)
    (h : g.buckets.any (fun b => b.id = id) = false) :
    api_update_bucket id body ⟨g, [], tr⟩ = .error (.noSuchBucket id) := by
  unfold api_update_bucket popErr emit
  simp [h]

theorem any_id_map (bs : List RemoteBucket) (f : RemoteBucket → RemoteBucket)
    (hf : ∀ b, (f b).id = b.id) (i : Nat) :
    (bs.map f).any (fun b => decide (b.id = i)) =
      bs.any (fun b => decide (b.id = i)) := by
  induction bs with
  | nil => rfl
  | cons b rest ih =>
    simp only [List.map_cons, List.any_cons, hf b, ih]

theorem entryStep_id (k : String) (di : BucketConfig × Nat)
    (b : RemoteBucket) : (entryStep k di b).id = b.id := by
  rw [entryStep_eq]

theorem entryStep_aliases (k : String) (di : BucketConfig × Nat)
    (b : RemoteBucket) :
    (entryStep k di b).global_aliases = b.global_aliases := by
  rw [entryStep_eq]

theorem runEntries_id (k : String) (ρ : List (BucketConfig × Nat))
    (b : RemoteBucket) : (runEntries k ρ b).id = b.id := by
  rw [runEntries_eq]

theorem runEntries_aliases (k : String) (ρ : List (BucketConfig × Nat))
    (b : RemoteBucket) :
    (runEntries k ρ b).global_aliases = b.global_aliases := by
  rw [runEntries_eq]

theorem entryStep_comp (k : String) (d : BucketConfig) (i : Nat) :
    ((fun b => if b.id = i then
        { b with perms := upsertPerm k allPermissions b.perms } else b) ∘
      (fun b => if b.id = i then
        applyUpdateBucket (updateBucketBody d.policy) b else b)) =
      entryStep k (d, i) := by
  funext b
  simp only [Function.comp, entryStep]

theorem ensure_buckets_loop_cons (k : String) (m : List (String × Nat))
    (d : BucketConfig) (rest : List BucketConfig) (s : St) :
    ensure_buckets_loop k m (d :: rest) s =
      ((match m.lookup d.name with
        | none => api_create_bucket d.name s
        | some bucket_id => .ok (bucket_id, s)) >>= fun p =>
        api_update_bucket p.1 (updateBucketBody d.policy) p.2 >>= fun s1 =>
        api_allow_bucket_key k p.1 allPermissions s1 >>= fun s2 =>
        ensure_buckets_loop k m rest s2) := by
  rw [ensure_buckets_loop]
  cases m.lookup d.name with
  | none =>
    cases api_create_bucket d.name s with
    | error e => rfl
    | ok p => rfl
  | some i => rfl

theorem ensure_buckets_loop_cons_some (k : String) (m : List (String × Nat))
    (d : BucketConfig) (rest : List BucketConfig) (g : GarageState)
    (tr : List Event) (i : Nat)
    (hlook : m.lookup d.name = some i)
    (hex : g.buckets.any (fun b => b.id = i) = true) :
    ensure_buckets_loop k m (d :: rest) ⟨g, [], tr⟩ =
      ensure_buckets_loop k m rest
        ⟨{ g with buckets := g.buckets.map (entryStep k (d, i)) }, [],
          tr ++ [.updateBucket i (updateBucketBody d.policy),
            .allowBucketKey k i allPermissions]⟩ := by
  rw [ensure_buckets_loop_cons, hlook, except_bind_ok,
    api_update_bucket_nil_ok i (updateBucketBody d.policy) g tr hex,
    except_bind_ok]
  have hex2 : (g.buckets.map
      (fun b => if b.id = i then
        applyUpdateBucket (updateBucketBody d.policy) b else b)).any
        (fun b => b.id = i) = true := by
    rw [any_id_map]
    · exact hex
    · intro b
      by_cases hb : b.id = i
      · simp [hb, applyUpdateBucket]
      · simp [hb]
  rw [api_allow_bucket_key_nil_ok k i allPermissions _ _ hex2, except_bind_ok]
  simp only [List.map_map, List.append_assoc, entryStep_comp,
    List.singleton_append, List.cons_append, List.nil_append]

theorem ensure_buckets_loop_cons_some_err (k : String)
    (m : List (String × Nat)) (d : BucketConfig) (rest : List BucketConfig)
    (g : GarageState) (tr : List Event) (i : Nat)
    (hlook : m.lookup d.name = some i)
    (hex : g.buckets.any (fun b => b.id = i) = false) :
    ensure_buckets_loop k m (d :: rest) ⟨g, [], tr⟩ =
      .error (.noSuchBucket i) := by
  rw [ensure_buckets_loop_cons, hlook, except_bind_ok,
    api_update_bucket_nil_err i (updateBucketBody d.policy) g tr hex,
    except_bind_error]

theorem ensure_buckets_loop_cons_none (k : String) (m : List (String × Nat))
    (d : BucketConfig) (rest : List BucketConfig) (g : GarageState)
    (tr : List Event)
    (hlook : m.lookup d.name = none)
    (hfresh : bucketAliasTaken g.buckets d.name = false) :
    ensure_buckets_loop k m (d :: rest) ⟨g, [], tr⟩ =
      ensure_buckets_loop k m rest
        ⟨{ g with
            buckets := (g.buckets ++
              [(⟨g.nextId, [d.name], ⟨false, none, none⟩, []⟩ :
                RemoteBucket)]).map (entryStep k (d, g.nextId)),
            nextId := g.nextId + 1 }, [],
          tr ++ [.createBucket d.name,
            .updateBucket g.nextId (updateBucketBody d.policy),
            .allowBucketKey k g.nextId allPermissions]⟩ := by
  rw [ensure_buckets_loop_cons, hlook,
    api_create_bucket_nil_ok d.name g tr hfresh, except_bind_ok]
  have hex : (g.buckets ++
      [(⟨g.nextId, [d.name], ⟨false, none, none⟩, []⟩ : RemoteBucket)]).any
        (fun b => b.id = g.nextId) = true := by
    rw [List.any_append]
    apply Bool.or_eq_true_iff.mpr
    right
    simp
  rw [api_update_bucket_nil_ok g.nextId (updateBucketBody d.policy) _ _ hex,
    except_bind_ok]
  have hex2 : ((g.buckets ++
      [(⟨g.nextId, [d.name], ⟨false, none, none⟩, []⟩ : RemoteBucket)]).map
        (fun b => if b.id = g.nextId then
          applyUpdateBucket (updateBucketBody d.policy) b else b)).any
        (fun b => b.id = g.nextId) = true := by
    rw [any_id_map]
    · exact hex
    · intro b
      by_cases hb : b.id = g.nextId
      · simp [hb, applyUpdateBucket]
      · simp [hb]
  rw [api_allow_bucket_key_nil_ok k g.nextId allPermissions _ _ hex2,
    except_bind_ok]
  simp only [List.map_map, List.append_assoc, entryStep_comp,
    List.singleton_append, List.cons_append, List.nil_append]

theorem ensure_buckets_loop_cons_none_err (k : String)
    (m : List (String × Nat)) (d : BucketConfig) (rest : List BucketConfig)
    (g : GarageState) (tr : List Event)
    (hlook : m.lookup d.name = none)
    (hfresh : bucketAliasTaken g.buckets d.name = true) :
    ensure_buckets_loop k m (d :: rest) ⟨g, [], tr⟩ =
      .error (.aliasTaken d.name) := by
  rw [ensure_buckets_loop_cons, hlook,
    api_create_bucket_nil_err d.name g tr hfresh, except_bind_error]

/-! ### Whole-loop lemmas -/

/-- Events issued by the loop when no bucket needs creating. -/
def replayEvents (k : String) : List (BucketConfig × Nat) → List Event
  | [] => []
  | di :: ρ => .updateBucket di.2 (updateBucketBody di.1.policy) ::
      .allowBucketKey k di.2 allPermissions :: replayEvents k ρ

/-- Website-update payload carried by an update-bucket event. -/
def updEventBody : Event → Option UpdateBucketRequestBody
  | .updateBucket _ body => some body
  | _ => none

/-- Whether an event is one of the three per-bucket loop calls. -/
def bucketLoopEvent : Event → Bool
  | .createBucket _ => true
  | .updateBucket _ _ => true
  | .allowBucketKey _ _ _ => true
  | _ => false

/-- Whether some update-bucket or allow-bucket-key event in the list
addresses the bucket id `i`. -/
def targetsId : List Event → Nat → Bool
  | [], _ => false
  | .updateBucket j _ :: tl, i => (j = i) || targetsId tl i
  | .allowBucketKey _ j _ :: tl, i => (j = i) || targetsId tl i
  | _ :: tl, i => targetsId tl i

theorem applyEntries_nil (k : String) (bs : List RemoteBucket) :
    applyEntries k [] bs = bs := by
  unfold applyEntries
  have h : runEntries k [] = id := by
    funext b
    rfl
  rw [h, List.map_id]

theorem applyEntries_cons (k : String) (di : BucketConfig × Nat)
    (ρ : List (BucketConfig × Nat)) (bs : List RemoteBucket) :
    applyEntries k ρ (bs.map (entryStep k di)) =
      applyEntries k (di :: ρ) bs := by
  unfold applyEntries
  rw [List.map_map]
  rfl

theorem entryStep_noop (k : String) (di : BucketConfig × Nat)
    (b : RemoteBucket) (h : b.id ≠ di.2) : entryStep k di b = b := by
  rw [entryStep_eq]
  simp [h]

theorem any_id_true_exists (bs : List RemoteBucket) (i : Nat)
    (h : bs.any (fun b => b.id = i) = true) : ∃ b ∈ bs, b.id = i := by
  rw [List.any_eq_true] at h
  obtain ⟨b, hb, hid⟩ := h
  exact ⟨b, hb, of_decide_eq_true hid⟩

theorem ensure_buckets_loop_replay (k : String) (m : List (String × Nat)) :
    ∀ (ρ : List (BucketConfig × Nat)) (g : GarageState) (tr : List Event),
      (∀ di ∈ ρ, m.lookup di.1.name = some di.2 ∧
        g.buckets.any (fun b => b.id = di.2) = true) →
      ensure_buckets_loop k m (ρ.map Prod.fst) ⟨g, [], tr⟩ =
        .ok ⟨{ g with buckets := applyEntries k ρ g.buckets }, [],
          tr ++ replayEvents k ρ⟩ := by
  intro ρ
  induction ρ with
  | nil =>
    intro g tr h
    rw [List.map_nil, ensure_buckets_loop]
    rw [applyEntries_nil, replayEvents]
    simp
  | cons di ρ ih =>
    intro g tr h
    obtain ⟨d, i⟩ := di
    obtain ⟨hlook, hex⟩ := h (d, i) (List.mem_cons_self (d, i) ρ)
    rw [List.map_cons]
    rw [ensure_buckets_loop_cons_some k m d (ρ.map Prod.fst) g tr i hlook hex]
    have h2 : ∀ dj ∈ ρ, m.lookup dj.1.name = some dj.2 ∧
        (g.buckets.map (entryStep k (d, i))).any
          (fun b => b.id = dj.2) = true := by
      intro dj hj
      obtain ⟨h1, h2⟩ := h dj (List.mem_cons_of_mem (d, i) hj)
      refine ⟨h1, ?_⟩
      rw [any_id_map _ _ (fun b => entryStep_id k (d, i) b)]
      exact h2
    rw [ih _ _ h2]
    rw [applyEntries_cons]
    rw [replayEvents]
    simp [List.append_assoc]

theorem ensure_buckets_loop_post (k : String) (m : List (String × Nat)) :
    ∀ (ds : List BucketConfig) (g : GarageState) (tr : List Event) (s1 : St),
      ensure_buckets_loop k m ds ⟨g, [], tr⟩ = .ok s1 →
      (∀ b ∈ g.buckets, b.id < g.nextId) →
      ∃ (ρ : List (BucketConfig × Nat)) (created : List RemoteBucket)
        (tl : List Event),
        ρ.map Prod.fst = ds ∧
        s1.g = { g with
          buckets := applyEntries k ρ (g.buckets ++ created),
          nextId := g.nextId + created.length } ∧
        s1.sched = [] ∧
        s1.trace = tr ++ tl ∧
        createdOk g.buckets g.nextId created ∧
        resolvedOk m created ρ ∧
        (∀ di ∈ ρ, di.2 < g.nextId + created.length) ∧
        tl.filterMap updEventBody =
          ds.map (fun d => updateBucketBody d.policy) ∧
        (∀ e ∈ tl, bucketLoopEvent e = true) ∧
        (∀ i, targetsId tl i = true → ∃ di ∈ ρ, di.2 = i) := by
  intro ds
  induction ds with
  | nil =>
    intro g tr s1 h hwf
    rw [ensure_buckets_loop] at h
    have hs1 : s1 = ⟨g, [], tr⟩ := by
      cases h
      rfl
    subst hs1
    refine ⟨[], [], [], rfl, ?_, rfl, by simp, trivial, trivial, ?_, rfl,
      ?_, ?_⟩
    · rw [List.append_nil, applyEntries_nil]
      simp
    · intro di hdi
      exact absurd hdi (List.not_mem_nil di)
    · intro e he
      exact absurd he (List.not_mem_nil e)
    · intro i hi
      rw [targetsId] at hi
      cases hi
  | cons d ds ih =>
    intro g tr s1 h hwf
    cases hlook : m.lookup d.name with
    | some i =>
      cases hex : g.buckets.any (fun b => b.id = i) with
      | false =>
        rw [ensure_buckets_loop_cons_some_err k m d ds g tr i hlook hex] at h
        exact absurd h (by simp)
      | true =>
        rw [ensure_buckets_loop_cons_some k m d ds g tr i hlook hex] at h
        have hwf2 : ∀ b ∈ (g.buckets.map (entryStep k (d, i))),
            b.id < g.nextId := by
          intro b hb
          obtain ⟨b0, hb0, rfl⟩ := List.mem_map.mp hb
          rw [entryStep_id]
          exact hwf b0 hb0
        obtain ⟨ρ1, created1, tl1, hmap, hg, hsched, htrace, hcre, hres,
          hbound, hfil, hloopev, htarget⟩ := ih _ _ _ h hwf2
        have hi_lt : i < g.nextId := by
          obtain ⟨b, hb, hbid⟩ := any_id_true_exists g.buckets i hex
          exact hbid ▸ hwf b hb
        have hcids : ∀ c ∈ created1, g.nextId ≤ c.id :=
          createdOk_ids created1 _ _ hcre
        have hnoop1 : ∀ c ∈ created1, entryStep k (d, i) c = c := by
          intro c hc
          apply entryStep_noop
          intro hcid
          have hle := hcids c hc
          rw [hcid] at hle
          exact absurd hle (Nat.not_le_of_lt hi_lt)
        have hcnoop : created1.map (entryStep k (d, i)) = created1 := by
          rw [List.map_congr_left hnoop1]
          simp
        have hcre0 : createdOk g.buckets g.nextId created1 := by
          apply createdOk_congr created1 (g.buckets.map (entryStep k (d, i)))
            g.buckets g.nextId _ hcre
          intro a
          exact bucketAliasTaken_map_preserved _
            (fun b => entryStep_aliases k (d, i) b) g.buckets a
        refine ⟨(d, i) :: ρ1, created1,
          .updateBucket i (updateBucketBody d.policy) ::
            .allowBucketKey k i allPermissions :: tl1,
          by rw [List.map_cons, hmap], ?_, hsched, ?_, hcre0,
          ⟨Or.inl hlook, hres⟩, ?_, ?_, ?_, ?_⟩
        · rw [hg]
          have : applyEntries k ((d, i) :: ρ1) (g.buckets ++ created1) =
              applyEntries k ρ1
                (g.buckets.map (entryStep k (d, i)) ++ created1) := by
            rw [← applyEntries_cons, List.map_append, hcnoop]
          rw [this]
        · rw [htrace]
          simp [List.append_assoc]
        · intro di hdi
          rcases List.mem_cons.mp hdi with rfl | hdi
          · exact Nat.lt_of_lt_of_le hi_lt (Nat.le_add_right _ _)
          · exact hbound di hdi
        · simp only [List.filterMap_cons, updEventBody, List.map_cons]
          rw [hfil]
        · intro e he
          rcases List.mem_cons.mp he with rfl | he
          · rfl
          rcases List.mem_cons.mp he with rfl | he
          · rfl
          · exact hloopev e he
        · intro j hj
          rw [targetsId] at hj
          rcases Bool.or_eq_true_iff.mp hj with hj | hj
          · exact ⟨(d, i), List.mem_cons_self _ _, of_decide_eq_true hj⟩
          rw [targetsId] at hj
          rcases Bool.or_eq_true_iff.mp hj with hj | hj
          · exact ⟨(d, i), List.mem_cons_self _ _, of_decide_eq_true hj⟩
          · obtain ⟨di, hdi, hdieq⟩ := htarget j hj
            exact ⟨di, List.mem_cons_of_mem _ hdi, hdieq⟩
    | none =>
      cases hfresh : bucketAliasTaken g.buckets d.name with
      | true =>
        rw [ensure_buckets_loop_cons_none_err k m d ds g tr hlook hfresh] at h
        exact absurd h (by simp)
      | false =>
        rw [ensure_buckets_loop_cons_none k m d ds g tr hlook hfresh] at h
        set newb : RemoteBucket :=
          ⟨g.nextId, [d.name], ⟨false, none, none⟩, []⟩ with hnewb
        have hwf2 : ∀ b ∈ ((g.buckets ++ [newb]).map
            (entryStep k (d, g.nextId))), b.id < g.nextId + 1 := by
          intro b hb
          obtain ⟨b0, hb0, rfl⟩ := List.mem_map.mp hb
          rw [entryStep_id]
          rcases List.mem_append.mp hb0 with hb0 | hb0
          · exact Nat.lt_succ_of_lt (hwf b0 hb0)
          · rw [List.mem_singleton.mp hb0]
            exact Nat.lt_succ_self _
        obtain ⟨ρ1, created1, tl1, hmap, hg, hsched, htrace, hcre, hres,
          hbound, hfil, hloopev, htarget⟩ := ih _ _ _ h hwf2
        have hcids : ∀ c ∈ created1, g.nextId + 1 ≤ c.id :=
          createdOk_ids created1 _ _ hcre
        have hnoop1 : ∀ c ∈ created1, entryStep k (d, g.nextId) c = c := by
          intro c hc
          apply entryStep_noop
          intro hcid
          have hle := hcids c hc
          rw [hcid] at hle
          exact absurd hle (Nat.not_le_of_lt (Nat.lt_succ_self _))
        have hcnoop : created1.map (entryStep k (d, g.nextId)) = created1 := by
          rw [List.map_congr_left hnoop1]
          simp
        have hcre0 : createdOk g.buckets g.nextId (newb :: created1) := by
          refine ⟨⟨d.name, rfl, hfresh⟩, ?_⟩
          apply createdOk_congr created1
            ((g.buckets ++ [newb]).map (entryStep k (d, g.nextId)))
            (g.buckets ++ [newb]) (g.nextId + 1) _ hcre
          intro a
          exact bucketAliasTaken_map_preserved _
            (fun b => entryStep_aliases k (d, g.nextId) b) _ a
        refine ⟨(d, g.nextId) :: ρ1, newb :: created1,
          .createBucket d.name ::
            .updateBucket g.nextId (updateBucketBody d.policy) ::
            .allowBucketKey k g.nextId allPermissions :: tl1,
          by rw [List.map_cons, hmap], ?_, hsched, ?_, hcre0, ?_, ?_, ?_,
          ?_, ?_⟩
        · rw [hg]
          have hsplit : g.buckets ++ newb :: created1 =
              (g.buckets ++ [newb]) ++ created1 := by
            rw [List.append_assoc, List.singleton_append]
          have : applyEntries k ((d, g.nextId) :: ρ1)
              (g.buckets ++ newb :: created1) =
              applyEntries k ρ1
                ((g.buckets ++ [newb]).map (entryStep k (d, g.nextId)) ++
                  created1) := by
            rw [hsplit, ← applyEntries_cons, List.map_append, hcnoop]
          rw [this]
          simp [Nat.add_assoc, Nat.add_comm 1 created1.length]
        · rw [htrace]
          simp [List.append_assoc]
        · refine ⟨Or.inr ⟨hlook, newb, List.mem_cons_self _ _, rfl, rfl⟩, ?_⟩
          exact resolvedOk_mono m created1 (newb :: created1)
            (fun c hc => List.mem_cons_of_mem _ hc) ρ1 hres
        · intro di hdi
          rcases List.mem_cons.mp hdi with rfl | hdi
          · show g.nextId < g.nextId + (newb :: created1).length
            simp only [List.length_cons]
            omega
          · have hb : di.2 < g.nextId + 1 + created1.length := hbound di hdi
            simp only [List.length_cons]
            omega
        · simp only [List.filterMap_cons, updEventBody, List.map_cons]
          rw [hfil]
        · intro e he
          rcases List.mem_cons.mp he with rfl | he
          · rfl
          rcases List.mem_cons.mp he with rfl | he
          · rfl
          rcases List.mem_cons.mp he with rfl | he
          · rfl
          · exact hloopev e he
        · intro j hj
          simp only [targetsId] at hj
          rcases Bool.or_eq_true_iff.mp hj with hj | hj
          · exact ⟨(d, g.nextId), List.mem_cons_self _ _,
              of_decide_eq_true hj⟩
          rcases Bool.or_eq_true_iff.mp hj with hj | hj
          · exact ⟨(d, g.nextId), List.mem_cons_self _ _,
              of_decide_eq_true hj⟩
          · obtain ⟨di, hdi, hdieq⟩ := htarget j hj
            exact ⟨di, List.mem_cons_of_mem _ hdi, hdieq⟩

theorem ensure_buckets_eq (config : Config) (g : GarageState)
    (tr : List Event) :
    ensure_buckets config ⟨g, [], tr⟩ =
      ensure_buckets_loop config.access_key_id (bucketMapPure g.buckets [])
        config.buckets
        ⟨g, [], tr ++ [.listBuckets] ++ warnEvents g.buckets⟩ := by
  have hstep : ensure_buckets config ⟨g, [], tr⟩ =
      (let p := collectBucketMap g.buckets []
        ⟨g, [], tr ++ [.listBuckets]⟩
       ensure_buckets_loop config.access_key_id p.1 config.buckets p.2) := by
    unfold ensure_buckets
    rw [api_list_buckets_nil, except_bind_ok]
  rw [hstep, collectBucketMap_spec]

theorem ensure_buckets_post (config : Config) (g : GarageState)
    (tr : List Event) (s1 : St)
    (h : ensure_buckets config ⟨g, [], tr⟩ = .ok s1)
    (hwf : ∀ b ∈ g.buckets, b.id < g.nextId) :
    ∃ (ρ : List (BucketConfig × Nat)) (created : List RemoteBucket)
      (tl : List Event),
      ρ.map Prod.fst = config.buckets ∧
      s1.g = { g with
        buckets := applyEntries config.access_key_id ρ
          (g.buckets ++ created),
        nextId := g.nextId + created.length } ∧
      s1.sched = [] ∧
      s1.trace = tr ++ [.listBuckets] ++ warnEvents g.buckets ++ tl ∧
      createdOk g.buckets g.nextId created ∧
      resolvedOk (bucketMapPure g.buckets []) created ρ ∧
      (∀ di ∈ ρ, di.2 < g.nextId + created.length) ∧
      tl.filterMap updEventBody =
        config.buckets.map (fun d => updateBucketBody d.policy) ∧
      (∀ e ∈ tl, bucketLoopEvent e = true) ∧
      (∀ i, targetsId tl i = true → ∃ di ∈ ρ, di.2 = i) := by
  rw [ensure_buckets_eq] at h
  obtain ⟨ρ, created, tl, hmap, hg, hsched, htrace, hcre, hres, hbound,
    hfil, hloopev, htarget⟩ :=
    ensure_buckets_loop_post config.access_key_id _ config.buckets g _ s1
      h hwf
  exact ⟨ρ, created, tl, hmap, hg, hsched, htrace, hcre, hres, hbound,
    hfil, hloopev, htarget⟩

theorem resolvedOk_forall (m : List (String × Nat))
    (created : List RemoteBucket) :
    ∀ ρ, resolvedOk m created ρ → ∀ di ∈ ρ,
      m.lookup di.1.name = some di.2 ∨
        (m.lookup di.1.name = none ∧
          ∃ c ∈ created, c.id = di.2 ∧
            c.global_aliases = [di.1.name]) := by
  intro ρ
  induction ρ with
  | nil => intro h di hdi; exact absurd hdi (List.not_mem_nil di)
  | cons dj ρ ih =>
    intro h di hdi
    obtain ⟨h1, h2⟩ := h
    rcases List.mem_cons.mp hdi with rfl | hdi
    · exact h1
    · exact ih h2 di hdi

theorem lookup_bucketMapPure_nil (n : String) (bs : List RemoteBucket) :
    List.lookup n (bucketMapPure bs []) = aliasId n bs := by
  rw [lookup_bucketMapPure]
  cases aliasId n bs with
  | some i => rfl
  | none => rfl

theorem aliasId_none_of_no_alias (n : String) :
    ∀ cs : List RemoteBucket, (∀ c ∈ cs, c.global_aliases ≠ [n]) →
      aliasId n cs = none := by
  intro cs
  induction cs with
  | nil => intro h; rfl
  | cons c rest ih =>
    intro h
    rw [aliasId, ih (fun c1 hc1 => h c1 (List.mem_cons_of_mem c hc1))]
    rw [if_neg (h c (List.mem_cons_self c rest))]

theorem any_id_of_mem (bs : List RemoteBucket) (b : RemoteBucket) (i : Nat)
    (hb : b ∈ bs) (hid : b.id = i) :
    bs.any (fun x => x.id = i) = true :=
  List.any_eq_true.mpr ⟨b, hb, decide_eq_true hid⟩

theorem warnEvents_warn (bs : List RemoteBucket) :
    ∀ e ∈ warnEvents bs, (∃ i, e = .warnBucketWithoutAlias i) ∨
      (∃ i, e = .warnBucketWithMultipleAliases i) := by
  induction bs with
  | nil => intro e he; exact absurd he (List.not_mem_nil e)
  | cons b rest ih =>
    intro e he
    rw [warnEvents] at he
    rcases hal : b.global_aliases with _ | ⟨a, _ | ⟨a2, t⟩⟩ <;>
      rw [hal] at he
    · rcases List.mem_cons.mp he with rfl | he
      · exact Or.inl ⟨b.id, rfl⟩
      · exact ih e he
    · exact ih e he
    · rcases List.mem_cons.mp he with rfl | he
      · exact Or.inr ⟨b.id, rfl⟩
      · exact ih e he

theorem replayEvents_shape (k : String) :
    ∀ ρ, ∀ e ∈ replayEvents k ρ,
      (∃ i body, e = .updateBucket i body) ∨
        (∃ a i p, e = .allowBucketKey a i p) := by
  intro ρ
  induction ρ with
  | nil => intro e he; exact absurd he (List.not_mem_nil e)
  | cons di ρ ih =>
    intro e he
    rw [replayEvents] at he
    rcases List.mem_cons.mp he with rfl | he
    · exact Or.inl ⟨di.2, updateBucketBody di.1.policy, rfl⟩
    rcases List.mem_cons.mp he with rfl | he
    · exact Or.inr ⟨k, di.2, allPermissions, rfl⟩
    · exact ih e he

theorem warnEvents_filterMap (bs : List RemoteBucket) :
    (warnEvents bs).filterMap updEventBody = [] := by
  induction bs with
  | nil => rfl
  | cons b rest ih =>
    rw [warnEvents]
    rcases hal : b.global_aliases with _ | ⟨a, _ | ⟨a2, t⟩⟩
    · rw [List.filterMap_cons]
      exact ih
    · exact ih
    · rw [List.filterMap_cons]
      exact ih

/-- C7: in any successful `ensure_buckets` run, the website-access
update calls are exactly one per configured bucket, in configuration
order — for newly created and pre-existing buckets alike — and each
payload is determined solely by the configured policy: `Public` yields
`{enabled: true, index_document: "index.html", error_document: none}`
and `Private` yields `{enabled: false, index_document: none,
error_document: none}`. -/
theorem ensure_buckets_website_policy (config : Config) (g : GarageState)
    (s1 : St)
    (h : ensure_buckets config ⟨g, [], []⟩ = .ok s1)
    (hwf : ∀ b ∈ g.buckets, b.id < g.nextId) :
    s1.trace.filterMap updEventBody =
      config.buckets.map (fun d => updateBucketBody d.policy) ∧
    updateBucketBody .Public =
      ⟨none, some ⟨true, none, some "index.html"⟩⟩ ∧
    updateBucketBody .Private = ⟨none, some ⟨false, none, none⟩⟩ := by
  obtain ⟨ρ, created, tl, hmap, hg, hsched, htrace, hcre, hres, hbound,
    hfil, hloopev, htarget⟩ := ensure_buckets_post config g [] s1 h hwf
  refine ⟨?_, rfl, rfl⟩
  rw [htrace]
  have h1 : (([] ++ [Event.listBuckets]) : List Event).filterMap
      updEventBody = [] := rfl
  rw [List.filterMap_append, List.filterMap_append, h1,
    warnEvents_filterMap, hfil]
  simp

/-- Configuration used by the concrete bucket-ensurer witnesses: one
public bucket, one private bucket. -/
def witnessConfig : Config :=
  ⟨"admintok", "metricstok", "key1", "sec1",
    [⟨"site", .Public⟩, ⟨"data", .Private⟩]⟩

/-- Remote state used by the concrete bucket-ensurer witnesses: layout
already initialized, key imported, one pre-existing addressable bucket
`"data"`, one bucket without aliases, one with two aliases. -/
def witnessState : GarageState :=
  ⟨1, [], [], [("key1", "sec1")],
    [⟨7, [], ⟨false, none, none⟩, []⟩,
      ⟨8, ["x", "y"], ⟨true, none, none⟩, []⟩,
      ⟨9, ["data"], ⟨true, none, some "home.html"⟩, []⟩], 10⟩

/-- Result state of running the bucket ensurer on the witness state. -/
def witnessRun : St :=
  match ensure_buckets witnessConfig ⟨witnessState, [], []⟩ with
  | .ok s => s
  | .error _ => ⟨witnessState, [], []⟩

/-- Witness for C7: on the concrete witness state (which exercises both
the create path for `"site"` and the pre-existing path for `"data"`),
the update-call payload sequence is exactly the two policy payloads. -/
theorem ensure_buckets_website_policy_witness :
    witnessRun.trace.filterMap updEventBody =
      witnessConfig.buckets.map (fun d => updateBucketBody d.policy) ∧
    updateBucketBody .Public =
      ⟨none, some ⟨true, none, some "index.html"⟩⟩ ∧
    updateBucketBody .Private = ⟨none, some ⟨false, none, none⟩⟩ :=
  ensure_buckets_website_policy witnessConfig witnessState witnessRun
    (by rfl) (by decide)

theorem targetsId_of_mem_upd (i : Nat) (body : UpdateBucketRequestBody) :
    ∀ tl : List Event, Event.updateBucket i body ∈ tl →
      targetsId tl i = true := by
  intro tl
  induction tl with
  | nil => intro h; exact absurd h (List.not_mem_nil _)
  | cons e tl ih =>
    intro h0
    rcases List.mem_cons.mp h0 with rfl | hmem
    · simp [targetsId]
    · clear h0
      cases e <;> simp [targetsId, ih hmem]

theorem targetsId_of_mem_allow (i : Nat) (a : String)
    (p : ApiBucketKeyPerm) :
    ∀ tl : List Event, Event.allowBucketKey a i p ∈ tl →
      targetsId tl i = true := by
  intro tl
  induction tl with
  | nil => intro h; exact absurd h (List.not_mem_nil _)
  | cons e tl ih =>
    intro h0
    rcases List.mem_cons.mp h0 with rfl | hmem
    · simp [targetsId]
    · clear h0
      cases e <;> simp [targetsId, ih hmem]

theorem mem_warnEvents_no (b : RemoteBucket) :
    ∀ bs : List RemoteBucket, b ∈ bs → b.global_aliases = [] →
      Event.warnBucketWithoutAlias b.id ∈ warnEvents bs := by
  intro bs
  induction bs with
  | nil => intro h _; exact absurd h (List.not_mem_nil _)
  | cons b0 rest ih =>
    intro h hal
    rw [warnEvents]
    rcases List.mem_cons.mp h with rfl | h
    · rw [hal]
      exact List.mem_cons_self _ _
    · rcases hal0 : b0.global_aliases with _ | ⟨a, _ | ⟨a2, t⟩⟩
      · exact List.mem_cons_of_mem _ (ih h hal)
      · exact ih h hal
      · exact List.mem_cons_of_mem _ (ih h hal)

theorem mem_warnEvents_multi (b : RemoteBucket) :
    ∀ bs : List RemoteBucket, b ∈ bs → 2 ≤ b.global_aliases.length →
      Event.warnBucketWithMultipleAliases b.id ∈ warnEvents bs := by
  intro bs
  induction bs with
  | nil => intro h _; exact absurd h (List.not_mem_nil _)
  | cons b0 rest ih =>
    intro h hlen
    rw [warnEvents]
    rcases List.mem_cons.mp h with rfl | h
    · rcases hal : b.global_aliases with _ | ⟨a, _ | ⟨a2, t⟩⟩ <;>
        rw [hal] at hlen
      · exact absurd hlen (by decide)
      · exact absurd hlen (by simp)
      · exact List.mem_cons_self _ _
    · rcases hal0 : b0.global_aliases with _ | ⟨a, _ | ⟨a2, t⟩⟩
      · exact List.mem_cons_of_mem _ (ih h hlen)
      · exact ih h hlen
      · exact List.mem_cons_of_mem _ (ih h hlen)

/-- C6: in any successful `ensure_buckets` run over a well-formed remote
state, a remote bucket whose global-alias count is 0 or at least 2 is
excluded from the alias-to-id map, a warning is logged for it, no
update-bucket or allow-bucket-key call is ever issued against its id,
and the bucket itself is still present, unchanged, afterwards. -/
theorem ensure_buckets_ambiguous_untouched (config : Config)
    (g : GarageState) (s1 : St) (b : RemoteBucket)
    (h : ensure_buckets config ⟨g, [], []⟩ = .ok s1)
    (hwf : ∀ b1 ∈ g.buckets, b1.id < g.nextId)
    (hnodup : (g.buckets.map RemoteBucket.id).Nodup)
    (hb : b ∈ g.buckets)
    (hamb : b.global_aliases.length ≠ 1) :
    (∀ n, List.lookup n (bucketMapPure g.buckets []) ≠ some b.id) ∧
    (∀ e ∈ s1.trace, (∀ body, e ≠ .updateBucket b.id body) ∧
      (∀ a p, e ≠ .allowBucketKey a b.id p)) ∧
    b ∈ s1.g.buckets ∧
    ((b.global_aliases = [] ∧
        Event.warnBucketWithoutAlias b.id ∈ s1.trace) ∨
      (2 ≤ b.global_aliases.length ∧
        Event.warnBucketWithMultipleAliases b.id ∈ s1.trace)) := by
  obtain ⟨ρ, created, tl, hmap, hg, hsched, htrace, hcre, hres, hbound,
    hfil, hloopev, htarget⟩ := ensure_buckets_post config g [] s1 h hwf
  have hmapne : ∀ n, List.lookup n (bucketMapPure g.buckets []) ≠
      some b.id := by
    intro n hcontra
    rw [lookup_bucketMapPure_nil] at hcontra
    obtain ⟨b1, hb1, hid1, hal1⟩ := aliasId_mem n g.buckets b.id hcontra
    have hbeq : b1 = b :=
      List.inj_on_of_nodup_map hnodup hb1 hb hid1
    rw [hbeq] at hal1
    rw [hal1] at hamb
    exact hamb rfl
  have hρne : ∀ di ∈ ρ, di.2 ≠ b.id := by
    intro di hdi hdieq
    rcases resolvedOk_forall _ _ ρ hres di hdi with hl | ⟨-, c, hc, hcid, -⟩
    · rw [hdieq] at hl
      exact hmapne di.1.name hl
    · have h1 : g.nextId ≤ c.id := createdOk_ids created _ _ hcre c hc
      have h2 : b.id < g.nextId := hwf b hb
      rw [hcid, hdieq] at h1
      exact absurd h2 (Nat.not_lt_of_le h1)
  have htlne : ∀ e ∈ tl, (∀ body, e ≠ .updateBucket b.id body) ∧
      (∀ a p, e ≠ .allowBucketKey a b.id p) := by
    intro e he
    constructor
    · intro body heq
      subst heq
      obtain ⟨di, hdi, hdieq⟩ :=
        htarget b.id (targetsId_of_mem_upd b.id body tl he)
      exact hρne di hdi hdieq
    · intro a p heq
      subst heq
      obtain ⟨di, hdi, hdieq⟩ :=
        htarget b.id (targetsId_of_mem_allow b.id a p tl he)
      exact hρne di hdi hdieq
  refine ⟨hmapne, ?_, ?_, ?_⟩
  · intro e he
    rw [htrace] at he
    rcases List.mem_append.mp he with he | he
    · rcases List.mem_append.mp he with he | he
      · rcases List.mem_append.mp he with he | he
        · exact absurd he (List.not_mem_nil e)
        · rw [List.mem_singleton.mp he]
          exact ⟨fun body heq => Event.noConfusion heq,
            fun a p heq => Event.noConfusion heq⟩
      · rcases warnEvents_warn g.buckets e he with ⟨i, rfl⟩ | ⟨i, rfl⟩
        · exact ⟨fun body heq => Event.noConfusion heq,
            fun a p heq => Event.noConfusion heq⟩
        · exact ⟨fun body heq => Event.noConfusion heq,
            fun a p heq => Event.noConfusion heq⟩
    · exact htlne e he
  · rw [hg]
    show b ∈ applyEntries config.access_key_id ρ (g.buckets ++ created)
    unfold applyEntries
    apply List.mem_map.mpr
    refine ⟨b, List.mem_append_left _ hb, ?_⟩
    exact runEntries_noop _ ρ b (fun di hdi => fun heq =>
      hρne di hdi heq.symm)
  · have hmemtr : ∀ e, e ∈ warnEvents g.buckets → e ∈ s1.trace := by
      intro e he
      rw [htrace]
      exact List.mem_append_left _ (List.mem_append_right _ he)
    rcases hal : b.global_aliases with _ | ⟨a, _ | ⟨a2, t⟩⟩
    · exact Or.inl ⟨rfl, hmemtr _ (mem_warnEvents_no b g.buckets hb hal)⟩
    · rw [hal] at hamb
      exact absurd rfl hamb
    · refine Or.inr ⟨?_, hmemtr _ (mem_warnEvents_multi b g.buckets hb ?_)⟩
      · simp only [List.length_cons]
        omega
      · rw [hal]
        simp only [List.length_cons]
        omega

/-- Witness for C6: in the concrete witness run, the two-alias bucket
(id 8) is unmatched, unmodified, still present, and warned about. -/
theorem ensure_buckets_ambiguous_untouched_witness :
    (∀ n, List.lookup n (bucketMapPure witnessState.buckets []) ≠
      some (8 : Nat)) ∧
    (∀ e ∈ witnessRun.trace,
      (∀ body, e ≠ .updateBucket 8 body) ∧
      (∀ a p, e ≠ .allowBucketKey a 8 p)) ∧
    (⟨8, ["x", "y"], ⟨true, none, none⟩, []⟩ : RemoteBucket) ∈
      witnessRun.g.buckets ∧
    (((["x", "y"] : List String) = [] ∧
        Event.warnBucketWithoutAlias 8 ∈ witnessRun.trace) ∨
      (2 ≤ (["x", "y"] : List String).length ∧
        Event.warnBucketWithMultipleAliases 8 ∈ witnessRun.trace)) :=
  ensure_buckets_ambiguous_untouched witnessConfig witnessState witnessRun
    ⟨8, ["x", "y"], ⟨true, none, none⟩, []⟩
    (by rfl) (by decide) (by decide) (by decide) (by decide)

/-! ### The reconciliation sequence and its idempotence -/

theorem reconcile_eq (node_id : String) (config : Config) (s : St) :
    reconcile node_id config s =
      (ensure_layout node_id s >>= fun s1 =>
        ensure_key config.access_key_id config.secret_access_key s1 >>=
          fun s2 => ensure_buckets config s2) := rfl

theorem ensure_layout_post (node_id : String) (g : GarageState)
    (tr : List Event) (sa : St)
    (h : ensure_layout node_id ⟨g, [], tr⟩ = .ok sa) :
    sa.g.buckets = g.buckets ∧ sa.g.keys = g.keys ∧
    sa.g.nextId = g.nextId ∧ sa.sched = [] ∧ 0 < sa.g.layoutVersion := by
  rcases Nat.eq_zero_or_pos g.layoutVersion with hv | hv
  · rw [(ensure_layout_eqs node_id g tr).2.1 hv] at h
    cases h
    exact ⟨rfl, rfl, rfl, rfl, Nat.zero_lt_one⟩
  · rw [(ensure_layout_eqs node_id g tr).1 hv] at h
    cases h
    exact ⟨rfl, rfl, rfl, rfl, hv⟩

theorem ensure_key_post (k sec : String) (g : GarageState) (tr : List Event)
    (sb : St) (h : ensure_key k sec ⟨g, [], tr⟩ = .ok sb) :
    sb.g.buckets = g.buckets ∧ sb.g.nextId = g.nextId ∧
    sb.g.layoutVersion = g.layoutVersion ∧ sb.sched = [] ∧
    sb.g.keys.any (fun kv => kv.1 = k) = true := by
  unfold ensure_key at h
  rw [api_import_key_nil] at h
  cases h
  by_cases hmem : g.keys.any (fun kv => kv.1 = k) = true
  · simp [hmem]
  · have hmem2 : g.keys.any (fun kv => kv.1 = k) = false := by
      cases hq : g.keys.any (fun kv => kv.1 = k)
      · rfl
      · exact absurd hq hmem
    simp [hmem2, List.any_append]

theorem ensure_key_mem_eq (k sec : String) (g : GarageState)
    (tr : List Event)
    (hmem : g.keys.any (fun kv => kv.1 = k) = true) :
    ensure_key k sec ⟨g, [], tr⟩ = .ok ⟨g, [], tr ++ [.importKey k sec]⟩ := by
  unfold ensure_key
  rw [api_import_key_nil]
  simp [hmem]

theorem resolution_transfer (base : List RemoteBucket) (nid : Nat)
    (created : List RemoteBucket) (ρ : List (BucketConfig × Nat))
    (bs1 : List RemoteBucket)
    (halias : ∀ n, aliasId n bs1 = aliasId n (base ++ created))
    (hids : ∀ i, bs1.any (fun b => b.id = i) =
      (base ++ created).any (fun b => b.id = i))
    (hcre : createdOk base nid created)
    (hres : resolvedOk (bucketMapPure base []) created ρ) :
    ∀ di ∈ ρ, List.lookup di.1.name (bucketMapPure bs1 []) = some di.2 ∧
      bs1.any (fun b => b.id = di.2) = true := by
  intro di hdi
  rw [lookup_bucketMapPure_nil, halias, hids]
  rcases resolvedOk_forall _ _ ρ hres di hdi with hl | ⟨hn, c, hc, hcid, hcal⟩
  · rw [lookup_bucketMapPure_nil] at hl
    have htaken : bucketAliasTaken base di.1.name = true :=
      aliasId_some_taken _ _ _ hl
    have hnone : aliasId di.1.name created = none := by
      apply aliasId_none_of_no_alias
      intro c1 hc1 hal1
      obtain ⟨n1, hn1, hf1⟩ := createdOk_fresh created _ _ hcre c1 hc1
      rw [hn1] at hal1
      have hne : n1 = di.1.name := (List.cons.inj hal1).1
      rw [hne] at hf1
      rw [htaken] at hf1
      cases hf1
    constructor
    · rw [aliasId_append, hnone]
      exact hl
    · obtain ⟨b, hbmem, hbid, -⟩ := aliasId_mem _ _ _ hl
      exact any_id_of_mem _ b di.2 (List.mem_append_left _ hbmem) hbid
  · have hcal2 : aliasId di.1.name created = some c.id :=
      createdOk_aliasId created _ _ hcre c hc di.1.name hcal
    constructor
    · rw [aliasId_append, hcal2, hcid]
    · exact any_id_of_mem _ c di.2 (List.mem_append_right _ hc) hcid

/-- C1: running the full reconciliation sequence a second time against
the remote state produced by a first successful run yields the same
observable remote end state as the single run: the layout version is at
a non-zero value after the first run and the second run issues no
layout update or apply call (so the version stays at its first non-zero
value), and the second run returns the remote state unchanged — same
bucket set, website policies, access-key permissions and keys. -/
theorem reconcile_idempotent (node_id : String) (config : Config)
    (g0 : GarageState) (s1 : St)
    (hwf : ∀ b ∈ g0.buckets, b.id < g0.nextId)
    (h1 : reconcile node_id config ⟨g0, [], []⟩ = .ok s1) :
    0 < s1.g.layoutVersion ∧
    ∃ s2, reconcile node_id config ⟨s1.g, [], []⟩ = .ok s2 ∧
      s2.g = s1.g ∧
      ∀ e ∈ s2.trace, (∀ r, e ≠ .updateClusterLayout r) ∧
        (∀ v, e ≠ .applyClusterLayout v) := by
  rw [reconcile_eq] at h1
  cases hA : ensure_layout node_id ⟨g0, [], []⟩ with
  | error e =>
    rw [hA, except_bind_error] at h1
    exact absurd h1 (by simp)
  | ok sa =>
  rw [hA, except_bind_ok] at h1
  obtain ⟨haB, haK, haN, haS, haV⟩ := ensure_layout_post node_id g0 [] sa hA
  obtain ⟨sag, sasched, satr⟩ := sa
  simp only at haB haK haN haS haV h1
  subst haS
  cases hB : ensure_key config.access_key_id config.secret_access_key
      ⟨sag, [], satr⟩ with
  | error e =>
    rw [hB, except_bind_error] at h1
    exact absurd h1 (by simp)
  | ok sb =>
  rw [hB, except_bind_ok] at h1
  obtain ⟨hbB, hbN, hbV, hbS, hbK⟩ :=
    ensure_key_post config.access_key_id config.secret_access_key sag
      satr sb hB
  obtain ⟨sbg, sbsched, sbtr⟩ := sb
  simp only at hbB hbN hbV hbS hbK h1
  subst hbS
  have hwfb : ∀ b ∈ sbg.buckets, b.id < sbg.nextId := by
    rw [hbB, hbN, haB, haN]
    exact hwf
  obtain ⟨ρ, created, tl, hmap, hg, hsched1, htrace1, hcre, hres, hbound,
    hfil, hloopev, htarget⟩ :=
    ensure_buckets_post config sbg sbtr s1 h1 hwfb
  have hver : 0 < s1.g.layoutVersion := by
    rw [hg]
    show 0 < sbg.layoutVersion
    rw [hbV]
    exact haV
  refine ⟨hver, ?_⟩
  have hs1buckets : s1.g.buckets =
      applyEntries config.access_key_id ρ (sbg.buckets ++ created) := by
    rw [hg]
  have hs1keys : s1.g.keys = sbg.keys := by
    rw [hg]
  have hkmem : s1.g.keys.any
      (fun kv => kv.1 = config.access_key_id) = true := by
    rw [hs1keys]
    exact hbK
  have hres2 : ∀ di ∈ ρ,
      List.lookup di.1.name (bucketMapPure s1.g.buckets []) = some di.2 ∧
      s1.g.buckets.any (fun b => b.id = di.2) = true := by
    apply resolution_transfer sbg.buckets sbg.nextId created ρ
      s1.g.buckets _ _ hcre hres
    · intro n
      rw [hs1buckets]
      exact aliasId_map_preserved n _
        (fun b => ⟨runEntries_id _ _ b, runEntries_aliases _ _ b⟩) _
    · intro i
      rw [hs1buckets]
      exact any_id_map _ _ (fun b => runEntries_id _ _ b) i
  rw [reconcile_eq]
  rw [(ensure_layout_eqs node_id s1.g []).1 hver, except_bind_ok]
  rw [ensure_key_mem_eq config.access_key_id config.secret_access_key
    s1.g _ hkmem, except_bind_ok]
  rw [ensure_buckets_eq]
  rw [← hmap]
  rw [ensure_buckets_loop_replay config.access_key_id
    (bucketMapPure s1.g.buckets []) ρ s1.g _
    (fun di hdi => (hres2 di hdi))]
  refine ⟨_, rfl, ?_, ?_⟩
  · show ({ s1.g with
        buckets := applyEntries config.access_key_id ρ s1.g.buckets } :
        GarageState) = s1.g
    rw [hs1buckets, applyEntries_idem, ← hs1buckets]
  · intro e he
    simp only at he
    rcases List.mem_append.mp he with he | he
    · rcases List.mem_append.mp he with he | he
      · rcases List.mem_append.mp he with he | he
        · rcases List.mem_append.mp he with he | he
          · rcases List.mem_append.mp he with he | he
            · exact absurd he (List.not_mem_nil e)
            · rw [List.mem_singleton.mp he]
              exact ⟨fun r heq => Event.noConfusion heq,
                fun v heq => Event.noConfusion heq⟩
          · rw [List.mem_singleton.mp he]
            exact ⟨fun r heq => Event.noConfusion heq,
              fun v heq => Event.noConfusion heq⟩
        · rw [List.mem_singleton.mp he]
          exact ⟨fun r heq => Event.noConfusion heq,
            fun v heq => Event.noConfusion heq⟩
      · rcases warnEvents_warn _ e he with ⟨i, rfl⟩ | ⟨i, rfl⟩
        · exact ⟨fun r heq => Event.noConfusion heq,
            fun v heq => Event.noConfusion heq⟩
        · exact ⟨fun r heq => Event.noConfusion heq,
            fun v heq => Event.noConfusion heq⟩
    · rcases replayEvents_shape config.access_key_id ρ e he with
        ⟨i, body, rfl⟩ | ⟨a, i, p, rfl⟩
      · exact ⟨fun r heq => Event.noConfusion heq,
          fun v heq => Event.noConfusion heq⟩
      · exact ⟨fun r heq => Event.noConfusion heq,
          fun v heq => Event.noConfusion heq⟩

/-- Empty remote state for the concrete idempotence witness. -/
def c1State : GarageState := ⟨0, [], [], [], [], 0⟩

/-- Result of a first full reconciliation run on the empty state. -/
def c1Run : St :=
  match reconcile "node1" witnessConfig ⟨c1State, [], []⟩ with
  | .ok s => s
  | .error _ => ⟨c1State, [], []⟩

/-- Witness for C1: a concrete first run from the empty remote state
(layout version 0, no keys, no buckets) succeeds, and the second run
returns the same remote state with no layout update or apply calls. -/
theorem reconcile_idempotent_witness :
    0 < c1Run.g.layoutVersion ∧
    ∃ s2, reconcile "node1" witnessConfig ⟨c1Run.g, [], []⟩ = .ok s2 ∧
      s2.g = c1Run.g ∧
      ∀ e ∈ s2.trace, (∀ r, e ≠ .updateClusterLayout r) ∧
        (∀ v, e ≠ .applyClusterLayout v) :=
  reconcile_idempotent "node1" witnessConfig c1State c1Run
    (by decide) (by rfl)
